import Mathlib

/-
Verification of the Instilplay_viz frame-synchronized annotation pipeline.

This file shallowly embeds the video-annotation core of the repository:
the codec negotiator and writer creation (src/utils/video_processor.py),
the skeleton renderer (src/utils/pose_drawing.py), and the five
metric-family processors (COM, FBR, head, hip-shoulder, kinematics).

Modelling conventions:
* OpenCV frames are modelled as an opaque raw-image id plus an ordered
  display list of drawing operations (`Frame`); each cv2 drawing call
  appends one `DrawOp`.  Pixel contents of the raw image are not modelled.
* Python floats are modelled as rationals; `int(x)` is `pyInt`
  (truncation toward zero); `x // y` on ints is `Int.fdiv`.
* The cv2/file-system environment is an explicit record (`CodecEnv`,
  `WriterEnv`) saying which writers open and what size the codec probe
  file has after one test frame is written.
* A Python exception raised by a library call while processing frame `i`
  of the per-frame loop is modelled by an oracle `raisesAt i = true`;
  the processors have no try/finally, so a raise propagates.
* `cv2.VideoWriter.write` on a writer that failed to open silently drops
  the frame; the model reflects that.
-/

namespace InstilplayViz

/-- A BGR color triple, as used by cv2 (values 0..255). -/
structure Color where
  b : ℕ
  g : ℕ
  r : ℕ
deriving DecidableEq, Repr

def white : Color := ⟨255, 255, 255⟩

/-- One cv2 drawing call recorded on a frame.  `circle` thickness -1 means
filled, matching cv2.  `text` records the format-string tag and the raw
numeric values interpolated into it (float text formatting is abstracted). -/
inductive DrawOp where
  | circle (center : ℤ × ℤ) (radius : ℕ) (color : Color) (thickness : ℤ)
  | line (p1 p2 : ℤ × ℤ) (color : Color) (thickness : ℕ)
  | text (tag : String) (vals : List ℚ) (pos : ℤ × ℤ) (scale : ℚ) (color : Color) (thickness : ℕ)
  | rect (p1 p2 : ℤ × ℤ) (color : Color) (thickness : ℤ)
  | blend (w1 w2 : ℚ)
deriving DecidableEq, Repr

/-- A video frame: the decoded raw image (opaque id) plus the overlay
drawing operations applied to it, in order. -/
structure Frame where
  image : ℕ
  ops : List DrawOp
deriving DecidableEq, Repr

/-- Python `int(x)`: truncation toward zero (`tdiv` of the reduced
numerator by the denominator is exactly that). -/
def pyInt (q : ℚ) : ℤ := q.num.tdiv (q.den : ℤ)

/-- Python `s.endswith(suffix)`. -/
def pyEndsWith (s suffix : String) : Bool := decide (suffix.toList <:+ s.toList)

/-- Python `s.rsplit(".", 1)[0]`: everything before the last dot, or the
whole string when there is no dot. -/
def baseNoExt (s : String) : String :=
  let cs := s.toList
  if cs.contains '.' then (((cs.reverse.dropWhile (fun c => c ≠ '.')).drop 1).reverse).asString
  else s

/-- The trail-buffer push used by the processors:
`trail.append(v); if len(trail) > cap: trail.pop(0)`. -/
def trailPush {α : Type} (cap : ℕ) (trail : List α) (v : α) : List α :=
  let t := trail ++ [v]
  if cap < t.length then t.tail else t

/-- Per-segment trail line thickness, `max(1, int(factor * (k+1)/n))`
where `n` is the current trail length (Python `int` truncates; the
arguments here are nonnegative, so this is a floor). -/
def trailThickness (factor n k : ℕ) : ℕ :=
  (max 1 ⌊(factor : ℚ) * ((k : ℚ) + 1) / (n : ℚ)⌋).toNat

/-! ## Codec negotiation (src/utils/video_processor.py) -/

/-- The fourcc codes probed by `detect_available_codec`. -/
inductive Fourcc where
  | VP80
  | VP90
  | MJPG
  | mp4v
  | avc1
deriving DecidableEq, Repr

/-- The cv2 backend environment seen by the codec probe: whether a test
writer for a fourcc opens, the size of the probe file after one zero
test frame has been written and the writer released, and whether the
probe raises an exception (caught by the source's `except` clause). -/
structure CodecEnv where
  opens : Fourcc → Bool
  writtenSize : Fourcc → ℕ
  probeRaises : Fourcc → Bool

/-- The candidate list of `detect_available_codec`, in priority order. -/
def codecs_to_try : List (Fourcc × String × String) :=
  [(Fourcc.VP80, ".webm", "VP8"),
   (Fourcc.VP90, ".webm", "VP9"),
   (Fourcc.MJPG, ".avi", "MJPEG"),
   (Fourcc.mp4v, ".mp4", "MPEG4"),
   (Fourcc.avc1, ".mp4", "H264")]

/-- The per-candidate loop body of `detect_available_codec`: try to open a
writer at a throwaway path, write one zero-filled test frame, release, and
check the file exists with non-zero size; an exception rejects the
candidate and the loop continues. -/
def detectFrom (env : CodecEnv) : List (Fourcc × String × String) → Option (Fourcc × String × String)
  | [] => none
  | (fourcc, ext, name) :: rest =>
    if env.probeRaises fourcc then detectFrom env rest
    else if env.opens fourcc then
      if 0 < env.writtenSize fourcc then some (fourcc, ext, name)
      else detectFrom env rest
    else detectFrom env rest

/-- `detect_available_codec`: first candidate that verifiably persists a
non-empty test frame, or `none` (the source's `(None, None, None)`). -/
def detect_available_codec (env : CodecEnv) : Option (Fourcc × String × String) :=
  detectFrom env codecs_to_try

/-- The combined pass/fail verdict for one codec candidate. -/
def codecProbe (env : CodecEnv) (c : Fourcc × String × String) : Bool :=
  !env.probeRaises c.1 && env.opens c.1 && decide (0 < env.writtenSize c.1)

/-- The full environment for a processor run: the codec probe environment
plus whether a real writer opens at a given output path with a given
fourcc, and whether the best-effort ffmpeg remux succeeds. -/
structure WriterEnv extends CodecEnv where
  openAt : String → Fourcc → Bool
  ffmpegOk : Bool

/-- `create_video_writer`: negotiate a codec, rewrite the output path's
extension to the negotiated container, open the writer there; returns
`none` (the source's `(None, None)`) if negotiation fails or the writer
does not open. -/
def create_video_writer (env : WriterEnv) (output_path : String)
    (_width _height : ℕ) (_fps : ℚ) : Option (Fourcc × String) :=
  match detect_available_codec env.toCodecEnv with
  | none => none
  | some (fourcc, ext, _name) =>
    let final_output_path := baseNoExt output_path ++ ext
    if env.openAt final_output_path fourcc then some (fourcc, final_output_path)
    else none

/-- `convert_to_web_format`: best-effort ffmpeg remux; returns the target
path on success and the original input path on any failure. -/
def convert_to_web_format (env : WriterEnv) (input_path output_path : String) : String :=
  if env.ffmpegOk then output_path else input_path

/-! ## Skeleton renderer (src/utils/pose_drawing.py) -/

/-- A MediaPipe pose landmark dict: normalized coordinates plus the unused
`z` and `visibility` fields. -/
structure Landmark where
  x : ℚ
  y : ℚ
  z : ℚ
  visibility : ℚ
deriving DecidableEq, Repr

/-- The anatomical color groups of pose_drawing.py. -/
inductive BodyPart where
  | head
  | torso
  | arms
  | legs
deriving DecidableEq, Repr

/-- The `COLORS` table (BGR). -/
def COLORS : BodyPart → Color
  | .head => ⟨255, 200, 0⟩
  | .torso => ⟨0, 255, 0⟩
  | .arms => ⟨0, 165, 255⟩
  | .legs => ⟨255, 0, 255⟩

/-- The `POSE_CONNECTIONS` table: landmark index pairs with body part. -/
def POSE_CONNECTIONS : List ((ℕ × ℕ) × BodyPart) :=
  [((11, 12), .torso), ((11, 23), .torso), ((12, 24), .torso), ((23, 24), .torso),
   ((11, 13), .arms), ((13, 15), .arms), ((12, 14), .arms), ((14, 16), .arms),
   ((23, 25), .legs), ((25, 27), .legs), ((24, 26), .legs), ((26, 28), .legs),
   ((27, 29), .legs), ((29, 31), .legs), ((28, 30), .legs), ((30, 32), .legs),
   ((27, 31), .legs), ((28, 32), .legs)]

/-- `get_landmark_color`. -/
def get_landmark_color (idx : ℕ) : Color :=
  if idx ≤ 10 then COLORS .head
  else if idx = 11 ∨ idx = 12 ∨ idx = 23 ∨ idx = 24 then COLORS .torso
  else if idx = 13 ∨ idx = 14 ∨ idx = 15 ∨ idx = 16 then COLORS .arms
  else COLORS .legs

/-- Denormalize a landmark to pixel coordinates. -/
def landmarkPixel (lm : Landmark) (width height : ℕ) : ℤ × ℤ :=
  (pyInt (lm.x * (width : ℚ)), pyInt (lm.y * (height : ℚ)))

/-- `draw_pose_on_frame`: one radius-5 filled circle per landmark, colored
by body part, then one thickness-3 line per connection whose two endpoint
indices are both present. -/
def draw_pose_on_frame (frame : Frame) (landmarks : List Landmark) (width height : ℕ) : Frame :=
  let pts := landmarks.map (fun lm => landmarkPixel lm width height)
  let pointOps := pts.enum.map (fun ip => DrawOp.circle ip.2 5 (get_landmark_color ip.1) (-1))
  let connOps := POSE_CONNECTIONS.filterMap (fun c =>
    match pts.get? c.1.1, pts.get? c.1.2 with
    | some p1, some p2 => some (DrawOp.line p1 p2 (COLORS c.2) 3)
    | _, _ => none)
  { frame with ops := frame.ops ++ pointOps ++ connOps }

/-! ## COM overlay (src/utils/video_processor.py) -/

/-- The COM/head phase color chain: blue before `stance_frame`, green up
to and including `impact_frame`, orange after (head_viz.py repeats this
chain verbatim). -/
def comPhaseColor (frame_idx stance_frame impact_frame : ℕ) : Color :=
  if frame_idx < stance_frame then ⟨255, 100, 0⟩
  else if frame_idx ≤ impact_frame then ⟨0, 255, 0⟩
  else ⟨0, 165, 255⟩

/-- The trail line segments of `draw_com_on_frame`: consecutive
`(value, mid-height)` projections, thickness `max(1, int(3 * (i+1)/n))`. -/
def comTrailOps (com_trail : List ℚ) (color : Color) (width height : ℕ) : List DrawOp :=
  if 1 < com_trail.length then
    (List.range (com_trail.length - 1)).map (fun i =>
      DrawOp.line
        (pyInt (com_trail.getD i 0 * (width : ℚ)), pyInt ((height : ℚ) * (1/2)))
        (pyInt (com_trail.getD (i+1) 0 * (width : ℚ)), pyInt ((height : ℚ) * (1/2)))
        color (trailThickness 3 com_trail.length i))
  else []

/-- `draw_com_on_frame`: phase-colored COM dot at mid-height with white
ring, fading trail, and text label. -/
def draw_com_on_frame (frame : Frame) (com_x : ℚ) (frame_idx stance_frame impact_frame : ℕ)
    (com_trail : List ℚ) (width height : ℕ) : Frame :=
  let color := comPhaseColor frame_idx stance_frame impact_frame
  let cx := pyInt (com_x * (width : ℚ))
  let cy := pyInt ((height : ℚ) * (1/2))
  { frame with ops := frame.ops ++
      [DrawOp.circle (cx, cy) 10 color (-1), DrawOp.circle (cx, cy) 12 white 2] ++
      comTrailOps com_trail color width height ++
      [DrawOp.text "COM" [com_x] (cx - 50, cy - 20) (6/10) white 2] }

/-! ## FBR overlay (src/utils/fbr_video_processor.py) -/

/-- The four FBR phases. -/
inductive FbrPhase where
  | prePlant
  | footPlant
  | descent
  | recovery
deriving DecidableEq, Repr

/-- The FBR phase chain of `draw_fbr_overlay`: `<` on `plant_frame`, `=`
on `plant_frame`, `<=` on `lowest_frame`, else recovery. -/
def fbrPhase (plant_frame lowest_frame frame_idx : ℕ) : FbrPhase :=
  if frame_idx < plant_frame then .prePlant
  else if frame_idx = plant_frame then .footPlant
  else if frame_idx ≤ lowest_frame then .descent
  else .recovery

def fbrPhaseColor : FbrPhase → Color
  | .prePlant => ⟨255, 165, 0⟩
  | .footPlant => ⟨0, 0, 255⟩
  | .descent => ⟨0, 255, 255⟩
  | .recovery => ⟨0, 255, 0⟩

def fbrPhaseText : FbrPhase → String
  | .prePlant => "PRE-PLANT"
  | .footPlant => "FOOT PLANT"
  | .descent => "DESCENT"
  | .recovery => "RECOVERY"

/-- `draw_fbr_overlay`: ankle markers colored by phase, ankle line, phase
text, COM-Y text and indicator line.  Returns the frame unchanged when the
landmark list does not reach the ankle indices 27/28. -/
def draw_fbr_overlay (frame : Frame) (landmarks : List Landmark) (width height : ℕ)
    (frame_idx plant_frame lowest_frame : ℕ) (com_y : ℚ) : Frame :=
  if landmarks.length ≤ max 27 28 then frame
  else
    let l_ankle := landmarkPixel (landmarks.getD 27 ⟨0, 0, 0, 0⟩) width height
    let r_ankle := landmarkPixel (landmarks.getD 28 ⟨0, 0, 0, 0⟩) width height
    let phase := fbrPhase plant_frame lowest_frame frame_idx
    let ankle_color := fbrPhaseColor phase
    let com_pixel_y := pyInt (com_y * (height : ℚ))
    { frame with ops := frame.ops ++
        [DrawOp.circle l_ankle 12 ankle_color (-1), DrawOp.circle r_ankle 12 ankle_color (-1),
         DrawOp.circle l_ankle 14 white 2, DrawOp.circle r_ankle 14 white 2,
         DrawOp.line l_ankle r_ankle ankle_color 3,
         DrawOp.text (fbrPhaseText phase) [] (10, (height : ℤ) - 20) (8/10) ankle_color 2,
         DrawOp.text "COM Y" [com_y] ((width : ℤ) - 200, 50) (6/10) white 2,
         DrawOp.line (10, com_pixel_y) (100, com_pixel_y) ⟨0, 255, 255⟩ 3,
         DrawOp.text "COM" [] (105, com_pixel_y + 5) (5/10) ⟨0, 255, 255⟩ 2] }

/-! ## Kinematics overlay (src/utils/kinematics_video_processor.py) -/

/-- The four kinematic-sequencing phases. -/
inductive KinPhase where
  | hipDominant
  | torsoDominant
  | shoulderDominant
  | complete
deriving DecidableEq, Repr

/-- The kinematics phase chain of `draw_kinematics_overlay`: `<=` on each
of the three peak markers in order. -/
def kinPhase (hip_frame torso_frame shoulder_frame frame_idx : ℕ) : KinPhase :=
  if frame_idx ≤ hip_frame then .hipDominant
  else if frame_idx ≤ torso_frame then .torsoDominant
  else if frame_idx ≤ shoulder_frame then .shoulderDominant
  else .complete

/-- Segment colors (hip, torso, shoulder), phase label and phase color,
per kinematics phase. -/
def kinPhaseStyle : KinPhase → Color × Color × Color × String × Color
  | .hipDominant => (⟨0, 255, 255⟩, ⟨128, 128, 128⟩, ⟨128, 128, 128⟩, "HIP DOMINANT", ⟨0, 255, 255⟩)
  | .torsoDominant => (⟨0, 165, 255⟩, ⟨0, 255, 255⟩, ⟨128, 128, 128⟩, "TORSO DOMINANT", ⟨0, 255, 255⟩)
  | .shoulderDominant => (⟨0, 165, 255⟩, ⟨0, 165, 255⟩, ⟨0, 255, 255⟩, "SHOULDER DOMINANT", ⟨0, 255, 255⟩)
  | .complete => (⟨0, 255, 0⟩, ⟨0, 255, 0⟩, ⟨0, 255, 0⟩, "SEQUENCE COMPLETE", ⟨0, 255, 0⟩)

/-- Python `(a + b) // 2` midpoint on pixel coordinates (floor division). -/
def midpoint (p q : ℤ × ℤ) : ℤ × ℤ := ((p.1 + q.1).fdiv 2, (p.2 + q.2).fdiv 2)

/-- `draw_kinematics_overlay`: hip/shoulder/torso lines colored by the
active phase, phase indicator and peak markers.  Returns the frame
unchanged when the landmark list does not reach index 24. -/
def draw_kinematics_overlay (frame : Frame) (landmarks : List Landmark) (width height : ℕ)
    (frame_idx hip_frame torso_frame shoulder_frame : ℕ) : Frame :=
  if landmarks.length ≤ max (max 23 24) (max 11 12) then frame
  else
    let l_hip := landmarkPixel (landmarks.getD 23 ⟨0, 0, 0, 0⟩) width height
    let r_hip := landmarkPixel (landmarks.getD 24 ⟨0, 0, 0, 0⟩) width height
    let l_sh := landmarkPixel (landmarks.getD 11 ⟨0, 0, 0, 0⟩) width height
    let r_sh := landmarkPixel (landmarks.getD 12 ⟨0, 0, 0, 0⟩) width height
    let hip_mid := midpoint l_hip r_hip
    let sh_mid := midpoint l_sh r_sh
    let style := kinPhaseStyle (kinPhase hip_frame torso_frame shoulder_frame frame_idx)
    let hip_color := style.1
    let torso_color := style.2.1
    let shoulder_color := style.2.2.1
    let phase := style.2.2.2.1
    let phase_color := style.2.2.2.2
    let torso_mid := midpoint hip_mid sh_mid
    let peakOps : List DrawOp :=
      if frame_idx = hip_frame then
        [DrawOp.text "HIP PEAK!" [] ((width : ℤ) - 200, 50) (7/10) ⟨0, 255, 255⟩ 2]
      else if frame_idx = torso_frame then
        [DrawOp.text "TORSO PEAK!" [] ((width : ℤ) - 200, 50) (7/10) ⟨0, 255, 255⟩ 2]
      else if frame_idx = shoulder_frame then
        [DrawOp.text "SHOULDER PEAK!" [] ((width : ℤ) - 250, 50) (7/10) ⟨0, 255, 255⟩ 2]
      else []
    { frame with ops := frame.ops ++
        [DrawOp.line l_hip r_hip hip_color 4,
         DrawOp.circle l_hip 8 hip_color (-1), DrawOp.circle r_hip 8 hip_color (-1),
         DrawOp.text "HIP" [] (l_hip.1 - 40, l_hip.2 + 25) (5/10) hip_color 2,
         DrawOp.line l_sh r_sh shoulder_color 4,
         DrawOp.circle l_sh 8 shoulder_color (-1), DrawOp.circle r_sh 8 shoulder_color (-1),
         DrawOp.text "SHOULDER" [] (l_sh.1 - 60, l_sh.2 - 15) (5/10) shoulder_color 2,
         DrawOp.line hip_mid sh_mid torso_color 3,
         DrawOp.text "TORSO" [] (torso_mid.1 + 10, torso_mid.2) (5/10) torso_color 2,
         DrawOp.text phase [] (10, (height : ℤ) - 20) (8/10) phase_color 2] ++ peakOps }

/-! ## Hip-shoulder overlay (src/utils/hip_shoulder_video_processor.py) -/

/-- `draw_hip_shoulder_lines`: hip and shoulder lines (peak-highlighted),
midpoint connector, angle text with background rectangle.  Returns the
frame unchanged when the landmark list does not reach index 24. -/
def draw_hip_shoulder_lines (frame : Frame) (landmarks : List Landmark) (width height : ℕ)
    (angle : ℚ) (is_peak : Bool) : Frame :=
  if landmarks.length ≤ max (max 11 12) (max 23 24) then frame
  else
    let l_sh := landmarkPixel (landmarks.getD 11 ⟨0, 0, 0, 0⟩) width height
    let r_sh := landmarkPixel (landmarks.getD 12 ⟨0, 0, 0, 0⟩) width height
    let l_hp := landmarkPixel (landmarks.getD 23 ⟨0, 0, 0, 0⟩) width height
    let r_hp := landmarkPixel (landmarks.getD 24 ⟨0, 0, 0, 0⟩) width height
    let hip_color : Color := if is_peak then ⟨0, 255, 0⟩ else ⟨255, 165, 0⟩
    let shoulder_color : Color := if is_peak then ⟨0, 0, 255⟩ else ⟨255, 0, 255⟩
    let thickness : ℕ := if is_peak then 4 else 3
    let hip_mid := midpoint l_hp r_hp
    let shoulder_mid := midpoint l_sh r_sh
    let text_pos : ℤ × ℤ := ((width : ℤ) - 250, 50)
    let bg_color : Color := if is_peak then ⟨0, 255, 0⟩ else ⟨50, 50, 50⟩
    let tag := if is_peak then "PEAK" else "Separation"
    { frame with ops := frame.ops ++
        [DrawOp.line l_hp r_hp hip_color thickness,
         DrawOp.text "HIPS" [] (l_hp.1 - 50, l_hp.2 + 20) (6/10) hip_color 2,
         DrawOp.line l_sh r_sh shoulder_color thickness,
         DrawOp.text "SHOULDERS" [] (l_sh.1 - 80, l_sh.2 - 10) (6/10) shoulder_color 2,
         DrawOp.line hip_mid shoulder_mid white 1,
         DrawOp.rect (text_pos.1 - 10, text_pos.2 - 30) (text_pos.1 + 230, text_pos.2 + 10) bg_color (-1),
         DrawOp.text tag [angle] text_pos (8/10) white 2] }

/-! ## Head overlay (src/visualizations/head_viz.py) -/

/-- The trail line segments of `draw_head_on_frame`: consecutive
`(x, y)` points, thickness `max(1, int(2 * (i+1)/n))`. -/
def headTrailOps (head_trail : List (ℚ × ℚ)) (color : Color) (width height : ℕ) : List DrawOp :=
  if 1 < head_trail.length then
    (List.range (head_trail.length - 1)).map (fun i =>
      DrawOp.line
        (pyInt ((head_trail.getD i (0, 0)).1 * (width : ℚ)), pyInt ((head_trail.getD i (0, 0)).2 * (height : ℚ)))
        (pyInt ((head_trail.getD (i+1) (0, 0)).1 * (width : ℚ)), pyInt ((head_trail.getD (i+1) (0, 0)).2 * (height : ℚ)))
        color (trailThickness 2 head_trail.length i))
  else []

/-- `draw_head_on_frame`: phase-colored crosshair and dot at the head
position, fading trail, optional heatmap blend, and text label. -/
def draw_head_on_frame (frame : Frame) (head_x head_y : ℚ) (frame_idx stance_frame impact_frame : ℕ)
    (head_trail : List (ℚ × ℚ)) (width height : ℕ) (heatmap_overlay : Option Unit) : Frame :=
  let color := comPhaseColor frame_idx stance_frame impact_frame
  let hx := pyInt (head_x * (width : ℚ))
  let hy := pyInt (head_y * (height : ℚ))
  let blendOps : List DrawOp := if heatmap_overlay.isSome then [DrawOp.blend (7/10) (3/10)] else []
  { frame with ops := frame.ops ++
      [DrawOp.line (hx - 15, hy) (hx + 15, hy) color 2,
       DrawOp.line (hx, hy - 15) (hx, hy + 15) color 2,
       DrawOp.circle (hx, hy) 8 color (-1), DrawOp.circle (hx, hy) 10 white 2] ++
      headTrailOps head_trail color width height ++ blendOps ++
      [DrawOp.text "Head" [head_x, head_y] (hx - 80, hy - 25) (5/10) white 2] }

/-! ## Processor runs -/

/-- The input side of a run: whether `cv2.VideoCapture` opens, the decoder
properties, and the decoded raw images in order (after which `cap.read`
reports end of stream). -/
structure InputVideo where
  opensOk : Bool
  width : ℕ
  height : ℕ
  fps : ℚ
  frames : List ℕ

/-- One entry of the per-frame pose list. -/
structure PoseItem where
  frame_idx : ℕ
  landmarks : List Landmark

/-- The pose-map dict comprehension shared by all processors:
`{item['frame_idx']: item['landmarks'] for item in pose_data if item.get('landmarks')}` —
entries with falsy (empty) landmark lists are skipped; on duplicate keys
the later entry wins; lookup is `pose_map.get(frame_idx)`. -/
def poseMapGet (pose_data : List PoseItem) (idx : ℕ) : Option (List Landmark) :=
  (((pose_data.filter (fun it => !it.landmarks.isEmpty)).reverse.find?
      (fun it => it.frame_idx == idx)).map (fun it => it.landmarks))

/-- COM analysis record fields read by `process_video_with_com_overlay`,
each accessed with `dict.get(key, default)`. -/
structure ComData where
  com_x_series : Option (List ℚ)
  stance_frame : Option ℕ
  impact_frame : Option ℕ

/-- FBR analysis record fields read by `process_video_with_fbr`. -/
structure FbrData where
  com_y_series : Option (List ℚ)
  plant_frame : Option ℕ
  lowest_com_frame : Option ℕ

/-- Head analysis record fields read by `process_video_with_head_tracking`. -/
structure HeadData where
  head_x_smooth : Option (List ℚ)
  head_y_smooth : Option (List ℚ)
  stance_frame : Option ℕ
  impact_frame : Option ℕ

/-- The nested `key_frames` dict of the hip-shoulder record. -/
structure HsKeyFrames where
  peak_frame : Option ℕ
  downswing_start : Option ℕ
  downswing_end : Option ℕ

/-- Hip-shoulder analysis record fields read by `process_video_with_hip_shoulder`. -/
structure HsData where
  angle_series : Option (List ℚ)
  key_frames : Option HsKeyFrames

/-- The nested `peaks` dict of the kinematics record. -/
structure KinPeaks where
  hip_frame : Option ℕ
  torso_frame : Option ℕ
  shoulder_frame : Option ℕ

/-- Kinematics analysis record fields read by `process_video_with_kinematics`. -/
structure KinData where
  peaks : Option KinPeaks

/-- Outcome of one processor call.  `result` is the Python return value
(`none` both for an explicit `return None` and for a run that ended in an
uncaught exception, flagged by `raised`).  `written` is the sequence of
frames actually persisted by the encoder.  The two released flags record
whether `cap.release()` / `out.release()` ran before control left the
function. -/
structure RunResult where
  result : Option String
  written : List Frame
  capReleased : Bool
  outReleased : Bool
  raised : Bool
deriving DecidableEq, Repr

/-- Trail update of the COM loop: push onto the 15-element buffer only
when the series covers this frame index. -/
def comTrailStep (series : List ℚ) (idx : ℕ) (trail : List ℚ) : List ℚ :=
  if idx < series.length then trailPush 15 trail (series.getD idx 0) else trail

/-- Per-frame body of the COM loop: skeleton when landmarks are present,
COM overlay when the series covers this index (the trail has already been
pushed for this frame). -/
def comFrameBuild (pm : ℕ → Option (List Landmark)) (series : List ℚ) (stance impact w h : ℕ)
    (img idx : ℕ) (trail : List ℚ) : Frame :=
  let f0 : Frame := ⟨img, []⟩
  let f1 := match pm idx with
    | some lms => draw_pose_on_frame f0 lms w h
    | none => f0
  if idx < series.length then
    draw_com_on_frame f1 (series.getD idx 0) idx stance impact (comTrailStep series idx trail) w h
  else f1

/-- The COM per-frame loop.  Returns the frames handed to the encoder and
whether an exception was raised mid-loop. -/
def comLoop (pm : ℕ → Option (List Landmark)) (series : List ℚ) (stance impact w h : ℕ)
    (raisesAt : ℕ → Bool) : List ℕ → ℕ → List ℚ → List Frame × Bool
  | [], _, _ => ([], false)
  | img :: rest, idx, trail =>
    if raisesAt idx then ([], true)
    else
      let res := comLoop pm series stance impact w h raisesAt rest (idx + 1) (comTrailStep series idx trail)
      (comFrameBuild pm series stance impact w h img idx trail :: res.1, res.2)

/-- `process_video_with_com_overlay`: open input, create a writer via
codec negotiation, run the loop, release both handles, then best-effort
convert containers that are neither .mp4 nor .webm. -/
def comRun (env : WriterEnv) (video : InputVideo) (pose_data : List PoseItem)
    (com_data : ComData) (raisesAt : ℕ → Bool) (output_path : String) : RunResult :=
  if !video.opensOk then ⟨none, [], false, false, false⟩
  else
    match create_video_writer env output_path video.width video.height video.fps with
    | none => ⟨none, [], true, false, false⟩
    | some (_fourcc, final_output_path) =>
      let series := com_data.com_x_series.getD []
      let stance := com_data.stance_frame.getD 0
      let impact := com_data.impact_frame.getD 0
      let pm := poseMapGet pose_data
      let res := comLoop pm series stance impact video.width video.height raisesAt video.frames 0 []
      if res.2 then ⟨none, res.1, false, false, true⟩
      else
        let ret :=
          if !(pyEndsWith final_output_path ".mp4" || pyEndsWith final_output_path ".webm") then
            let converted_path := convert_to_web_format env final_output_path output_path
            if converted_path ≠ final_output_path then converted_path else final_output_path
          else final_output_path
        ⟨some ret, res.1, true, true, false⟩

/-- Per-frame body of the FBR loop: the FBR overlay is nested inside the
landmark check, and additionally guarded by the series length. -/
def fbrFrameBuild (pm : ℕ → Option (List Landmark)) (series : List ℚ) (plant lowest w h : ℕ)
    (img idx : ℕ) : Frame :=
  let f0 : Frame := ⟨img, []⟩
  match pm idx with
  | some lms =>
    let f1 := draw_pose_on_frame f0 lms w h
    if idx < series.length then
      draw_fbr_overlay f1 lms w h idx plant lowest (series.getD idx 0)
    else f1
  | none => f0

/-- The FBR per-frame loop. -/
def fbrLoop (pm : ℕ → Option (List Landmark)) (series : List ℚ) (plant lowest w h : ℕ)
    (raisesAt : ℕ → Bool) : List ℕ → ℕ → List Frame × Bool
  | [], _ => ([], false)
  | img :: rest, idx =>
    if raisesAt idx then ([], true)
    else
      let res := fbrLoop pm series plant lowest w h raisesAt rest (idx + 1)
      (fbrFrameBuild pm series plant lowest w h img idx :: res.1, res.2)

/-- `process_video_with_fbr`: forces an `.avi` extension and an MJPG
writer.  Note the source's writer-open guard tests
`not output_path.endswith('.avi')` — a condition made vacuously false two
lines earlier — instead of `not out.isOpened()`, so a writer-open failure
is not caught; frames written to the unopened writer are silently
dropped and the path is still returned. -/
def fbrRun (env : WriterEnv) (video : InputVideo) (pose_data : List PoseItem)
    (fbr_data : FbrData) (raisesAt : ℕ → Bool) (output_path : String) : RunResult :=
  if !video.opensOk then ⟨none, [], false, false, false⟩
  else
    let output_path2 :=
      if !pyEndsWith output_path ".avi" then baseNoExt output_path ++ ".avi" else output_path
    let opened := env.openAt output_path2 Fourcc.MJPG
    if !pyEndsWith output_path2 ".avi" then ⟨none, [], true, false, false⟩
    else
      let series := fbr_data.com_y_series.getD []
      let plant := fbr_data.plant_frame.getD 0
      let lowest := fbr_data.lowest_com_frame.getD 0
      let pm := poseMapGet pose_data
      let res := fbrLoop pm series plant lowest video.width video.height raisesAt video.frames 0
      let written := if opened then res.1 else []
      if res.2 then ⟨none, written, false, false, true⟩
      else ⟨some output_path2, written, true, true, false⟩

/-- Trail update of the head loop: push the `(x, y)` pair onto the
20-element buffer only when both series cover this frame index. -/
def headTrailStep (xs ys : List ℚ) (idx : ℕ) (trail : List (ℚ × ℚ)) : List (ℚ × ℚ) :=
  if idx < xs.length ∧ idx < ys.length then trailPush 20 trail (xs.getD idx 0, ys.getD idx 0)
  else trail

/-- Per-frame body of the head loop: skeleton, optional heatmap blend,
head overlay when both series cover this index. -/
def headFrameBuild (pm : ℕ → Option (List Landmark)) (xs ys : List ℚ) (stance impact w h : ℕ)
    (heatmap : Option Unit) (img idx : ℕ) (trail : List (ℚ × ℚ)) : Frame :=
  let f0 : Frame := ⟨img, []⟩
  let f1 := match pm idx with
    | some lms => draw_pose_on_frame f0 lms w h
    | none => f0
  let f2 := if heatmap.isSome then { f1 with ops := f1.ops ++ [DrawOp.blend (7/10) (3/10)] } else f1
  if idx < xs.length ∧ idx < ys.length then
    draw_head_on_frame f2 (xs.getD idx 0) (ys.getD idx 0) idx stance impact
      (headTrailStep xs ys idx trail) w h none
  else f2

/-- The head per-frame loop. -/
def headLoop (pm : ℕ → Option (List Landmark)) (xs ys : List ℚ) (stance impact w h : ℕ)
    (heatmap : Option Unit) : List ℕ → ℕ → List (ℚ × ℚ) → List Frame
  | [], _, _ => []
  | img :: rest, idx, trail =>
    headFrameBuild pm xs ys stance impact w h heatmap img idx trail ::
      headLoop pm xs ys stance impact w h heatmap rest (idx + 1) (headTrailStep xs ys idx trail)

/-- `process_video_with_head_tracking`: mp4v writer at the caller's path
(the source "retries" with identical arguments, which in a deterministic
environment yields the same writer), a heatmap underlay when the series
has more than 10 entries, then the per-frame loop. -/
def headRun (env : WriterEnv) (video : InputVideo) (pose_data : List PoseItem)
    (head_data : HeadData) (output_path : String) : RunResult :=
  if !video.opensOk then ⟨none, [], false, false, false⟩
  else
    let opened := env.openAt output_path Fourcc.mp4v
    if !opened then ⟨none, [], true, false, false⟩
    else
      let xs := head_data.head_x_smooth.getD []
      let ys := head_data.head_y_smooth.getD []
      let stance := head_data.stance_frame.getD 0
      let impact := head_data.impact_frame.getD 0
      let heatmap : Option Unit :=
        if !xs.isEmpty ∧ !ys.isEmpty ∧ 10 < xs.length then some () else none
      let pm := poseMapGet pose_data
      let frames := headLoop pm xs ys stance impact video.width video.height heatmap video.frames 0 []
      ⟨some output_path, frames, true, true, false⟩

/-- Per-frame body of the hip-shoulder loop: the separation overlay is
nested inside the landmark check and guarded by the series length; the
DOWNSWING indicator is drawn outside the landmark check. -/
def hsFrameBuild (pm : ℕ → Option (List Landmark)) (series : List ℚ)
    (peak ds de w h : ℕ) (img idx : ℕ) : Frame :=
  let f0 : Frame := ⟨img, []⟩
  let f1 := match pm idx with
    | some lms =>
      let fp := draw_pose_on_frame f0 lms w h
      if idx < series.length then
        draw_hip_shoulder_lines fp lms w h (series.getD idx 0) (idx == peak)
      else fp
    | none => f0
  if ds ≤ idx ∧ idx ≤ de then
    { f1 with ops := f1.ops ++ [DrawOp.text "DOWNSWING" [] (10, (h : ℤ) - 20) (7/10) ⟨0, 255, 255⟩ 2] }
  else f1

/-- The hip-shoulder per-frame loop. -/
def hsLoop (pm : ℕ → Option (List Landmark)) (series : List ℚ) (peak ds de w h : ℕ) :
    List ℕ → ℕ → List Frame
  | [], _ => []
  | img :: rest, idx =>
    hsFrameBuild pm series peak ds de w h img idx :: hsLoop pm series peak ds de w h rest (idx + 1)

/-- `process_video_with_hip_shoulder`: mp4v writer at the caller's path
(identical retry as in the head processor), nested `key_frames` defaults,
then the per-frame loop. -/
def hsRun (env : WriterEnv) (video : InputVideo) (pose_data : List PoseItem)
    (hs_data : HsData) (output_path : String) : RunResult :=
  if !video.opensOk then ⟨none, [], false, false, false⟩
  else
    let opened := env.openAt output_path Fourcc.mp4v
    if !opened then ⟨none, [], true, false, false⟩
    else
      let series := hs_data.angle_series.getD []
      let key_frames := hs_data.key_frames.getD ⟨none, none, none⟩
      let peak := key_frames.peak_frame.getD 0
      let ds := key_frames.downswing_start.getD 0
      let de := key_frames.downswing_end.getD 0
      let pm := poseMapGet pose_data
      let frames := hsLoop pm series peak ds de video.width video.height video.frames 0
      ⟨some output_path, frames, true, true, false⟩

/-- Per-frame body of the kinematics loop: the overlay is nested inside
the landmark check and has no series guard. -/
def kinFrameBuild (pm : ℕ → Option (List Landmark)) (hip torso shoulder w h : ℕ)
    (img idx : ℕ) : Frame :=
  let f0 : Frame := ⟨img, []⟩
  match pm idx with
  | some lms =>
    draw_kinematics_overlay (draw_pose_on_frame f0 lms w h) lms w h idx hip torso shoulder
  | none => f0

/-- The kinematics per-frame loop. -/
def kinLoop (pm : ℕ → Option (List Landmark)) (hip torso shoulder w h : ℕ) :
    List ℕ → ℕ → List Frame
  | [], _ => []
  | img :: rest, idx =>
    kinFrameBuild pm hip torso shoulder w h img idx ::
      kinLoop pm hip torso shoulder w h rest (idx + 1)

/-- `process_video_with_kinematics`: mp4v writer at the caller's path as
given (no extension rewrite, no codec negotiation), nested `peaks`
defaults, then the per-frame loop. -/
def kinRun (env : WriterEnv) (video : InputVideo) (pose_data : List PoseItem)
    (kin_data : KinData) (output_path : String) : RunResult :=
  if !video.opensOk then ⟨none, [], false, false, false⟩
  else
    let opened := env.openAt output_path Fourcc.mp4v
    if !opened then ⟨none, [], true, false, false⟩
    else
      let peaks := kin_data.peaks.getD ⟨none, none, none⟩
      let hip := peaks.hip_frame.getD 0
      let torso := peaks.torso_frame.getD 0
      let shoulder := peaks.shoulder_frame.getD 0
      let pm := poseMapGet pose_data
      let frames := kinLoop pm hip torso shoulder video.width video.height video.frames 0
      ⟨some output_path, frames, true, true, false⟩

/-! ## Shared concrete environments for counterexamples and witnesses -/

/-- An environment where every codec probe passes, every writer opens and
ffmpeg is available. -/
def envAll : WriterEnv :=
  { opens := fun _ => true, writtenSize := fun _ => 1, probeRaises := fun _ => false,
    openAt := fun _ _ => true, ffmpegOk := true }

/-- An environment where codec probes pass but no real output writer
opens. -/
def envNoWriter : WriterEnv :=
  { opens := fun _ => true, writtenSize := fun _ => 1, probeRaises := fun _ => false,
    openAt := fun _ _ => false, ffmpegOk := true }

/-- A one-frame input video. -/
def videoOne : InputVideo := ⟨true, 100, 100, 24, [0]⟩

/-- A 24 fps, 100-frame input video. -/
def video100 : InputVideo := ⟨true, 100, 100, 24, List.range 100⟩

/-- A length-100 COM series. -/
def series100 : List ℚ := List.replicate 100 0

/-! ## Projections used to state per-frame facts -/

/-- The thickness of a line op (0 for other ops). -/
def lineThicknessOf : DrawOp → ℕ
  | .line _ _ _ t => t
  | _ => 0

/-- The colors of the radius-10 filled circles in a frame: exactly the
COM phase dot drawn by `draw_com_on_frame` (skeleton markers have radius
5, the white ring has radius 12 and is not filled). -/
def comDotColors (f : Frame) : List Color :=
  f.ops.filterMap fun op =>
    match op with
    | DrawOp.circle _ r c th => if r = 10 ∧ th = -1 then some c else none
    | _ => none

/-- Whether a frame contains a skeleton landmark marker (radius-5 filled
circle), i.e. whether the skeleton layer was drawn. -/
def hasSkeletonOps (f : Frame) : Bool :=
  f.ops.any fun op =>
    match op with
    | DrawOp.circle _ r _ th => r == 5 && th == -1
    | _ => false

/-! ## General lemmas -/

theorem find?_first_spec {α : Type} (p : α → Bool) :
    ∀ (l : List α) (c : α), l.find? p = some c →
      ∃ i, i < l.length ∧ l.getD i c = c ∧ p c = true ∧
        ∀ j, j < i → p (l.getD j c) = false := by
  intro l
  induction l with
  | nil => intro c h; simp at h
  | cons a t ih =>
    intro c h
    by_cases hp : p a = true
    · rw [List.find?_cons_of_pos _ hp] at h
      obtain rfl : a = c := by injection h
      exact ⟨0, by simp, by simp, hp, fun j hj => absurd hj (Nat.not_lt_zero j)⟩
    · rw [List.find?_cons_of_neg _ (by simpa using hp)] at h
      obtain ⟨i, hi, hg, hpc, hprev⟩ := ih c h
      refine ⟨i + 1, by simpa using hi, by simpa using hg, hpc, ?_⟩
      intro j hj
      match j with
      | 0 => simpa using Bool.eq_false_iff.mpr hp
      | j + 1 => simpa using hprev j (by omega)

theorem detectFrom_eq_find? (env : CodecEnv) :
    ∀ l, detectFrom env l = l.find? (codecProbe env) := by
  intro l
  induction l with
  | nil => rfl
  | cons c t ih =>
    obtain ⟨fourcc, ext, name⟩ := c
    by_cases hr : env.probeRaises fourcc = true
    · have hp : codecProbe env (fourcc, ext, name) = false := by
        simp [codecProbe, hr]
      rw [List.find?_cons_of_neg _ (by simp [hp]), ← ih]
      simp [detectFrom, hr]
    · by_cases ho : env.opens fourcc = true
      · by_cases hs : 0 < env.writtenSize fourcc
        · have hp : codecProbe env (fourcc, ext, name) = true := by
            simp [codecProbe, hr, ho, hs]
          rw [List.find?_cons_of_pos _ hp]
          simp [detectFrom, hr, ho, hs]
        · have hp : codecProbe env (fourcc, ext, name) = false := by
            simp [codecProbe, hs]
          rw [List.find?_cons_of_neg _ (by simp [hp]), ← ih]
          simp [detectFrom, hr, ho, hs]
      · have hp : codecProbe env (fourcc, ext, name) = false := by
          simp [codecProbe, Bool.eq_false_iff.mpr ho]
        rw [List.find?_cons_of_neg _ (by simp [hp]), ← ih]
        simp [detectFrom, hr, Bool.eq_false_iff.mpr ho]

/-- C2: codec negotiation iterates the fixed priority-ordered candidate
list VP8/.webm, VP9/.webm, MJPEG/.avi, MPEG4/.mp4, H264/.mp4 and returns
the first candidate whose probe opens a writer, writes one test frame and
leaves a file of size strictly greater than zero; earlier candidates
failing any check are rejected in order, and if every candidate fails it
returns the explicit failure value (modelled as `none`). -/
theorem C2_codec_negotiation (env : CodecEnv) :
    codecs_to_try = [(Fourcc.VP80, ".webm", "VP8"), (Fourcc.VP90, ".webm", "VP9"),
      (Fourcc.MJPG, ".avi", "MJPEG"), (Fourcc.mp4v, ".mp4", "MPEG4"),
      (Fourcc.avc1, ".mp4", "H264")] ∧
    detect_available_codec env = codecs_to_try.find? (codecProbe env) ∧
    (∀ c, detect_available_codec env = some c →
      codecProbe env c = true ∧
      ∃ i, i < codecs_to_try.length ∧ codecs_to_try.getD i c = c ∧
        ∀ j, j < i → codecProbe env (codecs_to_try.getD j c) = false) ∧
    (detect_available_codec env = none ↔ ∀ c ∈ codecs_to_try, codecProbe env c = false) := by
  have hfind : detect_available_codec env = codecs_to_try.find? (codecProbe env) :=
    detectFrom_eq_find? env codecs_to_try
  refine ⟨rfl, hfind, ?_, ?_⟩
  · intro c hc
    rw [hfind] at hc
    obtain ⟨i, hi, hg, hpc, hprev⟩ := find?_first_spec (codecProbe env) codecs_to_try c hc
    exact ⟨hpc, i, hi, hg, hprev⟩
  · rw [hfind, List.find?_eq_none]
    constructor
    · intro h c hc
      simpa using h c hc
    · intro h c hc
      simp [h c hc]

/-! ## C6: phase classification at key-frame markers -/

/-- C6 counterexample: the claim says a frame exactly equal to a marker is
classified into the phase beginning at that marker (so classification
would change at the marker, not after it).  With kinematics markers
hip=5, torso=10, shoulder=15, frame 10 — equal to the torso marker — is
classified TORSO DOMINANT, the same phase as frame 9, i.e. the phase
ending at the marker; the next phase begins only at frame 11.  The FBR
scheme violates it too at its `lowest_frame` marker: with plant=5,
lowest=10, frame 10 is still DESCENT and RECOVERY begins at 11. -/
theorem C6_marker_tie_counterexample :
    kinPhase 5 10 15 10 = KinPhase.torsoDominant ∧
    kinPhase 5 10 15 9 = KinPhase.torsoDominant ∧
    kinPhase 5 10 15 11 = KinPhase.shoulderDominant ∧
    fbrPhase 5 10 10 = FbrPhase.descent ∧
    fbrPhase 5 10 9 = FbrPhase.descent ∧
    fbrPhase 5 10 11 = FbrPhase.recovery := by
  decide

/-- C6 amended: only the FBR `plant_frame` boundary is inclusive on the
lower side (a frame equal to `plant_frame` starts FOOT PLANT).  The FBR
`lowest_frame` boundary and all kinematics boundaries are inclusive on
the upper side: a frame exactly equal to such a marker belongs to the
phase ending at that marker, and the next phase begins at marker + 1. -/
theorem C6_amended_marker_tie (plant lowest hip torso shoulder : ℕ)
    (h1 : plant < lowest) (h2 : hip < torso) (h3 : torso < shoulder) :
    fbrPhase plant lowest plant = FbrPhase.footPlant ∧
    fbrPhase plant lowest lowest = FbrPhase.descent ∧
    fbrPhase plant lowest (lowest + 1) = FbrPhase.recovery ∧
    kinPhase hip torso shoulder hip = KinPhase.hipDominant ∧
    kinPhase hip torso shoulder (hip + 1) = KinPhase.torsoDominant ∧
    kinPhase hip torso shoulder torso = KinPhase.torsoDominant ∧
    kinPhase hip torso shoulder (torso + 1) = KinPhase.shoulderDominant ∧
    kinPhase hip torso shoulder shoulder = KinPhase.shoulderDominant ∧
    kinPhase hip torso shoulder (shoulder + 1) = KinPhase.complete := by
  unfold fbrPhase kinPhase
  refine ⟨?_, ?_, ?_, ?_, ?_, ?_, ?_, ?_, ?_⟩
  · rw [if_neg (by omega), if_pos rfl]
  · rw [if_neg (by omega), if_neg (by omega), if_pos (by omega)]
  · rw [if_neg (by omega), if_neg (by omega), if_neg (by omega)]
  · rw [if_pos (by omega)]
  · rw [if_neg (by omega), if_pos (by omega)]
  · rw [if_neg (by omega), if_pos (by omega)]
  · rw [if_neg (by omega), if_neg (by omega), if_pos (by omega)]
  · rw [if_neg (by omega), if_neg (by omega), if_pos (by omega)]
  · rw [if_neg (by omega), if_neg (by omega), if_neg (by omega)]

theorem C6_amended_marker_tie_witness :
    (5 < 10 ∧ 5 < 10 ∧ 10 < 15) ∧
    (fbrPhase 5 10 5 = FbrPhase.footPlant ∧
     fbrPhase 5 10 10 = FbrPhase.descent ∧
     fbrPhase 5 10 11 = FbrPhase.recovery ∧
     kinPhase 5 10 15 5 = KinPhase.hipDominant ∧
     kinPhase 5 10 15 6 = KinPhase.torsoDominant ∧
     kinPhase 5 10 15 10 = KinPhase.torsoDominant ∧
     kinPhase 5 10 15 11 = KinPhase.shoulderDominant ∧
     kinPhase 5 10 15 15 = KinPhase.shoulderDominant ∧
     kinPhase 5 10 15 16 = KinPhase.complete) :=
  ⟨⟨by decide, by decide, by decide⟩,
   C6_amended_marker_tie 5 10 5 10 15 (by decide) (by decide) (by decide)⟩

/-! ## C8: trail buffer -/

/-- Pushing a value onto a buffer holding the most recent values yields
the buffer of most recent values of the extended sequence. -/
theorem trailPush_drop {α : Type} (N : ℕ) (vs : List α) (v : α) :
    trailPush N (vs.drop (vs.length - N)) v = (vs ++ [v]).drop (vs.length + 1 - N) := by
  by_cases h : vs.length < N
  · have h0 : vs.length - N = 0 := by omega
    have h1 : vs.length + 1 - N = 0 := by omega
    rw [h0, h1, List.drop_zero, List.drop_zero, trailPush]
    rw [if_neg (by simp; omega)]
  · have hN : N ≤ vs.length := by omega
    have hlen : (vs.drop (vs.length - N)).length = N := by
      rw [List.length_drop]; omega
    rw [trailPush]
    rw [if_pos (by simp [hlen])]
    by_cases hz : N = 0
    · subst hz
      have : vs.drop (vs.length - 0) = [] := by
        simp [List.drop_eq_nil_of_le]
      rw [this]
      simp [List.drop_eq_nil_of_le]
    · obtain ⟨c, cs, hcur⟩ : ∃ c cs, vs.drop (vs.length - N) = c :: cs := by
        rcases hd : vs.drop (vs.length - N) with _ | ⟨c, cs⟩
        · rw [hd] at hlen; simp at hlen; omega
        · exact ⟨c, cs, rfl⟩
      rw [hcur]
      have htail : cs = vs.drop (vs.length - N + 1) := by
        have := List.tail_drop vs (vs.length - N)
        rw [hcur] at this
        simpa using this
      have harith : vs.length - N + 1 = vs.length + 1 - N := by omega
      rw [List.cons_append, List.tail_cons, htail, harith]
      rw [List.drop_append_of_le_length (by omega)]

/-- Folding the trail push over a whole sequence keeps exactly the most
recent `N` values: the buffer equals the sequence with all but the last
`N` elements dropped. -/
theorem foldl_trailPush {α : Type} (N : ℕ) (vs : List α) :
    vs.foldl (trailPush N) [] = vs.drop (vs.length - N) := by
  induction vs using List.reverseRecOn with
  | nil => simp
  | append_singleton vs v ih =>
    rw [List.foldl_append, List.foldl_cons, List.foldl_nil, ih,
      trailPush_drop, List.length_append, List.length_singleton]

/-- C8: pushing `M > N` values through a capacity-`N` trail buffer leaves
exactly the most recent `N` values in insertion order (the oldest evicted
from the front on each overflow), and no intermediate buffer ever holds
more than `N` values. -/
theorem C8_trail_buffer {α : Type} (N : ℕ) (vs : List α) (h : N < vs.length) :
    (vs.foldl (trailPush N) []).length = N ∧
    vs.foldl (trailPush N) [] = vs.drop (vs.length - N) ∧
    ∀ k, ((vs.take k).foldl (trailPush N) []).length ≤ N := by
  refine ⟨?_, foldl_trailPush N vs, ?_⟩
  · rw [foldl_trailPush, List.length_drop]; omega
  · intro k
    rw [foldl_trailPush, List.length_drop, List.length_take]
    omega

theorem C8_trail_buffer_witness :
    (2 < ([10, 20, 30, 40] : List ℚ).length) ∧
    ((([10, 20, 30, 40] : List ℚ).foldl (trailPush 2) []).length = 2 ∧
     ([10, 20, 30, 40] : List ℚ).foldl (trailPush 2) [] =
       ([10, 20, 30, 40] : List ℚ).drop (([10, 20, 30, 40] : List ℚ).length - 2) ∧
     ∀ k, ((([10, 20, 30, 40] : List ℚ).take k).foldl (trailPush 2) []).length ≤ 2) :=
  ⟨by decide, C8_trail_buffer 2 [10, 20, 30, 40] (by decide)⟩

/-! ## C9: trail segment thickness -/

/-- C9 counterexample: the claim says segment thickness is
`max(1, round(3 * (k+1)/N))` in every trail-rendering overlay.  The code
truncates instead of rounding: for a COM trail of length 2, segment 0 has
`3 * 1/2 = 1.5`, the code draws thickness `max(1, int(1.5)) = 1`, while
the claimed formula gives `max(1, round(1.5)) = 2` (Python's banker's
rounding also yields 2 here). -/
theorem C9_thickness_counterexample :
    trailThickness 3 2 0 = 1 ∧
    (max 1 (round ((3 : ℚ) * ((0 : ℚ) + 1) / (2 : ℚ)))).toNat = 2 ∧
    (comTrailOps [0, 1/2] ⟨255, 100, 0⟩ 100 100).map lineThicknessOf = [1] := by
  have ht : trailThickness 3 2 0 = 1 := by norm_num [trailThickness]
  refine ⟨ht, ?_, ?_⟩
  · have : round ((3 : ℚ) * ((0 : ℚ) + 1) / (2 : ℚ)) = 2 := by
      norm_num [round_eq]
    rw [this]
    rfl
  · rw [comTrailOps, if_pos (by decide)]
    simp [List.range_succ, lineThicknessOf, ht]

theorem mem_comTrailOps (trail : List ℚ) (color : Color) (w h k : ℕ)
    (hk : k + 1 < trail.length) :
    DrawOp.line (pyInt (trail.getD k 0 * (w : ℚ)), pyInt ((h : ℚ) * (1/2)))
      (pyInt (trail.getD (k+1) 0 * (w : ℚ)), pyInt ((h : ℚ) * (1/2)))
      color (trailThickness 3 trail.length k) ∈ comTrailOps trail color w h := by
  rw [comTrailOps, if_pos (by omega)]
  exact List.mem_map_of_mem _ (List.mem_range.mpr (by omega))

theorem mem_headTrailOps (htrail : List (ℚ × ℚ)) (color : Color) (w h k : ℕ)
    (hk : k + 1 < htrail.length) :
    DrawOp.line
      (pyInt ((htrail.getD k (0, 0)).1 * (w : ℚ)), pyInt ((htrail.getD k (0, 0)).2 * (h : ℚ)))
      (pyInt ((htrail.getD (k+1) (0, 0)).1 * (w : ℚ)), pyInt ((htrail.getD (k+1) (0, 0)).2 * (h : ℚ)))
      color (trailThickness 2 htrail.length k) ∈ headTrailOps htrail color w h := by
  rw [headTrailOps, if_pos (by omega)]
  exact List.mem_map_of_mem _ (List.mem_range.mpr (by omega))

/-- C9 amended: for a trail of current length `n` and segment `k` counted
from the oldest end, the COM overlay draws its segment with thickness
`max(1, floor(3 * (k+1)/n))` and the head overlay with
`max(1, floor(2 * (k+1)/n))` — truncation rather than rounding, and the
head variant scales by 2, not 3. -/
theorem C9_amended_thickness (frame : Frame) (com_x hx hy : ℚ) (idx st im hst him : ℕ)
    (trail : List ℚ) (htrail : List (ℚ × ℚ)) (w h k : ℕ)
    (hk : k + 1 < trail.length) (hk2 : k + 1 < htrail.length) :
    DrawOp.line (pyInt (trail.getD k 0 * (w : ℚ)), pyInt ((h : ℚ) * (1/2)))
      (pyInt (trail.getD (k+1) 0 * (w : ℚ)), pyInt ((h : ℚ) * (1/2)))
      (comPhaseColor idx st im) (trailThickness 3 trail.length k)
      ∈ (draw_com_on_frame frame com_x idx st im trail w h).ops ∧
    trailThickness 3 trail.length k =
      (max 1 ⌊(3 : ℚ) * ((k : ℚ) + 1) / (trail.length : ℚ)⌋).toNat ∧
    DrawOp.line
      (pyInt ((htrail.getD k (0, 0)).1 * (w : ℚ)), pyInt ((htrail.getD k (0, 0)).2 * (h : ℚ)))
      (pyInt ((htrail.getD (k+1) (0, 0)).1 * (w : ℚ)), pyInt ((htrail.getD (k+1) (0, 0)).2 * (h : ℚ)))
      (comPhaseColor idx hst him) (trailThickness 2 htrail.length k)
      ∈ (draw_head_on_frame frame hx hy idx hst him htrail w h none).ops ∧
    trailThickness 2 htrail.length k =
      (max 1 ⌊(2 : ℚ) * ((k : ℚ) + 1) / (htrail.length : ℚ)⌋).toNat := by
  refine ⟨?_, by norm_num [trailThickness], ?_, by norm_num [trailThickness]⟩
  · rw [draw_com_on_frame]
    simp only [List.mem_append]
    left; right
    exact mem_comTrailOps trail (comPhaseColor idx st im) w h k hk
  · rw [draw_head_on_frame]
    simp only [List.mem_append]
    left; left; right
    exact mem_headTrailOps htrail (comPhaseColor idx hst him) w h k hk2

theorem C9_amended_thickness_witness :
    (0 + 1 < ([0, 1/2, 1] : List ℚ).length ∧
     0 + 1 < ([(0, 0), (1/2, 1/2), (1, 1)] : List (ℚ × ℚ)).length) ∧
    (DrawOp.line (pyInt (([0, 1/2, 1] : List ℚ).getD 0 0 * (100 : ℚ)), pyInt ((100 : ℚ) * (1/2)))
      (pyInt (([0, 1/2, 1] : List ℚ).getD 1 0 * (100 : ℚ)), pyInt ((100 : ℚ) * (1/2)))
      (comPhaseColor 0 0 0) (trailThickness 3 ([0, 1/2, 1] : List ℚ).length 0)
      ∈ (draw_com_on_frame ⟨0, []⟩ 0 0 0 0 [0, 1/2, 1] 100 100).ops ∧
     trailThickness 3 ([0, 1/2, 1] : List ℚ).length 0 =
      (max 1 ⌊(3 : ℚ) * ((0 : ℚ) + 1) / (([0, 1/2, 1] : List ℚ).length : ℚ)⌋).toNat ∧
     DrawOp.line
      (pyInt ((([(0, 0), (1/2, 1/2), (1, 1)] : List (ℚ × ℚ)).getD 0 (0, 0)).1 * (100 : ℚ)),
       pyInt ((([(0, 0), (1/2, 1/2), (1, 1)] : List (ℚ × ℚ)).getD 0 (0, 0)).2 * (100 : ℚ)))
      (pyInt ((([(0, 0), (1/2, 1/2), (1, 1)] : List (ℚ × ℚ)).getD 1 (0, 0)).1 * (100 : ℚ)),
       pyInt ((([(0, 0), (1/2, 1/2), (1, 1)] : List (ℚ × ℚ)).getD 1 (0, 0)).2 * (100 : ℚ)))
      (comPhaseColor 0 0 0) (trailThickness 2 ([(0, 0), (1/2, 1/2), (1, 1)] : List (ℚ × ℚ)).length 0)
      ∈ (draw_head_on_frame ⟨0, []⟩ 0 0 0 0 0 [(0, 0), (1/2, 1/2), (1, 1)] 100 100 none).ops ∧
     trailThickness 2 ([(0, 0), (1/2, 1/2), (1, 1)] : List (ℚ × ℚ)).length 0 =
      (max 1 ⌊(2 : ℚ) * ((0 : ℚ) + 1) /
        (([(0, 0), (1/2, 1/2), (1, 1)] : List (ℚ × ℚ)).length : ℚ)⌋).toNat) :=
  ⟨⟨by decide, by decide⟩,
   C9_amended_thickness ⟨0, []⟩ 0 0 0 0 0 0 0 0 [0, 1/2, 1] [(0, 0), (1/2, 1/2), (1, 1)]
     100 100 0 (by decide) (by decide)⟩

/-! ## Per-frame loop characterizations -/

/-- With no exception raised, the COM loop writes exactly one frame per
decoded frame, and the `k`-th written frame is the per-frame body applied
at frame index `idx + k` (at some trail state). -/
theorem comLoop_spec (pm : ℕ → Option (List Landmark)) (series : List ℚ)
    (stance impact w h : ℕ) :
    ∀ (imgs : List ℕ) (idx : ℕ) (trail : List ℚ),
      (comLoop pm series stance impact w h (fun _ => false) imgs idx trail).2 = false ∧
      (comLoop pm series stance impact w h (fun _ => false) imgs idx trail).1.length = imgs.length ∧
      ∀ k, k < imgs.length →
        ∃ tr, (comLoop pm series stance impact w h (fun _ => false) imgs idx trail).1.getD k ⟨0, []⟩ =
          comFrameBuild pm series stance impact w h (imgs.getD k 0) (idx + k) tr := by
  intro imgs
  induction imgs with
  | nil =>
    intro idx trail
    exact ⟨rfl, rfl, fun k hk => absurd hk (by simp)⟩
  | cons img rest ih =>
    intro idx trail
    obtain ⟨ih2, ihlen, ihk⟩ := ih (idx + 1) (comTrailStep series idx trail)
    refine ⟨by simpa [comLoop] using ih2, by simpa [comLoop] using ihlen, ?_⟩
    intro k hk
    match k with
    | 0 =>
      exact ⟨trail, by simp [comLoop]⟩
    | k + 1 =>
      obtain ⟨tr, htr⟩ := ihk k (by simpa using hk)
      refine ⟨tr, ?_⟩
      have harith : idx + (k + 1) = idx + 1 + k := by omega
      simpa [comLoop, harith] using htr

/-- The FBR analogue: with no exception raised, the `k`-th frame handed
to `out.write` is the per-frame body at index `idx + k`. -/
theorem fbrLoop_spec (pm : ℕ → Option (List Landmark)) (series : List ℚ)
    (plant lowest w h : ℕ) :
    ∀ (imgs : List ℕ) (idx : ℕ),
      (fbrLoop pm series plant lowest w h (fun _ => false) imgs idx).2 = false ∧
      (fbrLoop pm series plant lowest w h (fun _ => false) imgs idx).1.length = imgs.length ∧
      ∀ k, k < imgs.length →
        (fbrLoop pm series plant lowest w h (fun _ => false) imgs idx).1.getD k ⟨0, []⟩ =
          fbrFrameBuild pm series plant lowest w h (imgs.getD k 0) (idx + k) := by
  intro imgs
  induction imgs with
  | nil =>
    intro idx
    exact ⟨rfl, rfl, fun k hk => absurd hk (by simp)⟩
  | cons img rest ih =>
    intro idx
    obtain ⟨ih2, ihlen, ihk⟩ := ih (idx + 1)
    refine ⟨by simpa [fbrLoop] using ih2, by simpa [fbrLoop] using ihlen, ?_⟩
    intro k hk
    match k with
    | 0 => simp [fbrLoop]
    | k + 1 =>
      have harith : idx + (k + 1) = idx + 1 + k := by omega
      simpa [fbrLoop, harith] using ihk k (by simpa using hk)

/-- A successful pose-map lookup always yields a nonempty landmark list
(the dict comprehension filters falsy entries out). -/
theorem poseMapGet_ne_nil (pose_data : List PoseItem) (idx : ℕ) (lms : List Landmark)
    (h : poseMapGet pose_data idx = some lms) : lms ≠ [] := by
  rw [poseMapGet] at h
  obtain ⟨it, hfind, hlms⟩ : ∃ it, ((pose_data.filter (fun it => !it.landmarks.isEmpty)).reverse.find?
      (fun it => it.frame_idx == idx)) = some it ∧ it.landmarks = lms := by
    rcases hf : ((pose_data.filter (fun it => !it.landmarks.isEmpty)).reverse.find?
        (fun it => it.frame_idx == idx)) with _ | it
    · rw [hf] at h; simp at h
    · rw [hf] at h
      exact ⟨it, hf, by simpa using h⟩
  have hmem := List.mem_of_find?_eq_some hfind
  rw [List.mem_reverse, List.mem_filter] at hmem
  have hne := hmem.2
  rw [← hlms]
  intro hcon
  rw [hcon] at hne
  simp at hne

/-! ## Extraction lemmas for the COM overlay -/

theorem comDotColors_draw_pose (img : ℕ) (lms : List Landmark) (w h : ℕ) :
    comDotColors (draw_pose_on_frame ⟨img, []⟩ lms w h) = [] := by
  rw [draw_pose_on_frame, comDotColors]
  simp only [List.nil_append, List.filterMap_append, List.append_eq_nil]
  constructor
  · rw [List.filterMap_eq_nil]
    intro a ha
    obtain ⟨ip, _, rfl⟩ := List.mem_map.mp ha
    simp
  · rw [List.filterMap_eq_nil]
    intro a ha
    obtain ⟨c, _, hc⟩ := List.mem_filterMap.mp ha
    rcases hp1 : (lms.map (fun lm => landmarkPixel lm w h)).get? c.1.1 with _ | p1 <;>
      rcases hp2 : (lms.map (fun lm => landmarkPixel lm w h)).get? c.1.2 with _ | p2 <;>
      rw [hp1, hp2] at hc <;> simp at hc
    subst hc
    simp

theorem filterMap_comDot_comTrailOps (trail : List ℚ) (color : Color) (w h : ℕ) :
    (comTrailOps trail color w h).filterMap (fun op =>
      match op with
      | DrawOp.circle _ r c th => if r = 10 ∧ th = -1 then some c else none
      | _ => none) = [] := by
  rw [List.filterMap_eq_nil]
  intro a ha
  rw [comTrailOps] at ha
  by_cases hlen : 1 < trail.length
  · rw [if_pos hlen] at ha
    obtain ⟨i, _, rfl⟩ := List.mem_map.mp ha
    simp
  · rw [if_neg hlen] at ha
    simp at ha

theorem comDotColors_draw_com (f : Frame) (hf : comDotColors f = [])
    (com_x : ℚ) (idx st im : ℕ) (trail : List ℚ) (w h : ℕ) :
    comDotColors (draw_com_on_frame f com_x idx st im trail w h) =
      [comPhaseColor idx st im] := by
  rw [draw_com_on_frame, comDotColors]
  rw [comDotColors] at hf
  simp only [List.filterMap_append, hf, filterMap_comDot_comTrailOps]
  simp

theorem comDotColors_comFrameBuild_lt (pm : ℕ → Option (List Landmark)) (series : List ℚ)
    (st im w h img idx : ℕ) (tr : List ℚ) (hidx : idx < series.length) :
    comDotColors (comFrameBuild pm series st im w h img idx tr) =
      [comPhaseColor idx st im] := by
  rw [comFrameBuild]
  rcases hpm : pm idx with _ | lms
  · simp only [hidx, if_pos]
    exact comDotColors_draw_com ⟨img, []⟩ rfl _ _ _ _ _ _ _
  · simp only [hidx, if_pos]
    exact comDotColors_draw_com _ (comDotColors_draw_pose img lms w h) _ _ _ _ _ _ _

theorem comDotColors_comFrameBuild_ge (pm : ℕ → Option (List Landmark)) (series : List ℚ)
    (st im w h img idx : ℕ) (tr : List ℚ) (hidx : ¬ idx < series.length) :
    comDotColors (comFrameBuild pm series st im w h img idx tr) = [] := by
  rw [comFrameBuild]
  rcases hpm : pm idx with _ | lms
  · simp only [hidx, if_neg]
    rfl
  · simp only [hidx, if_neg]
    exact comDotColors_draw_pose img lms w h

theorem hasSkeletonOps_draw_pose (img : ℕ) (lms : List Landmark) (w h : ℕ)
    (hne : lms ≠ []) : hasSkeletonOps (draw_pose_on_frame ⟨img, []⟩ lms w h) = true := by
  rw [draw_pose_on_frame, hasSkeletonOps]
  rw [List.any_eq_true]
  obtain ⟨lm, lrest, rfl⟩ : ∃ lm lrest, lms = lm :: lrest := by
    rcases lms with _ | ⟨lm, lrest⟩
    · exact absurd rfl hne
    · exact ⟨lm, lrest, rfl⟩
  refine ⟨DrawOp.circle (landmarkPixel lm w h) 5 (get_landmark_color 0) (-1), ?_, by simp⟩
  simp [List.enum_cons]

/-! ## C7: end-to-end COM scenario A -/

theorem comPhaseColor_20_60 (i : ℕ) :
    (comPhaseColor i 20 60 = ⟨255, 100, 0⟩ ↔ i < 20) ∧
    (comPhaseColor i 20 60 = ⟨0, 255, 0⟩ ↔ 20 ≤ i ∧ i ≤ 60) ∧
    (comPhaseColor i 20 60 = ⟨0, 165, 255⟩ ↔ 60 < i) := by
  unfold comPhaseColor
  split_ifs with hA hB <;> refine ⟨?_, ?_, ?_⟩ <;> simp [Color.mk.injEq] <;> omega

/-- C7: for a 100-frame input with a COM series of length 100,
stance_frame = 20 and impact_frame = 60, the COM processor succeeds,
writes exactly 100 frames, and frame `i` carries exactly one COM phase
dot whose color is the pre-stance color iff `i < 20`, the
stance-to-impact color iff `20 ≤ i ≤ 60`, and the post-impact color iff
`60 < i`. -/
theorem C7_com_scenario_a (env : WriterEnv) (video : InputVideo) (pose_data : List PoseItem)
    (series : List ℚ) (output_path : String)
    (h1 : video.opensOk = true)
    (h2 : (create_video_writer env output_path video.width video.height video.fps).isSome = true)
    (h3 : series.length = 100) (h4 : video.frames.length = 100) :
    (comRun env video pose_data ⟨some series, some 20, some 60⟩ (fun _ => false) output_path).result.isSome = true ∧
    (comRun env video pose_data ⟨some series, some 20, some 60⟩ (fun _ => false) output_path).written.length = 100 ∧
    ∀ i, i < 100 →
      comDotColors ((comRun env video pose_data ⟨some series, some 20, some 60⟩
          (fun _ => false) output_path).written.getD i ⟨0, []⟩) = [comPhaseColor i 20 60] ∧
      (comPhaseColor i 20 60 = ⟨255, 100, 0⟩ ↔ i < 20) ∧
      (comPhaseColor i 20 60 = ⟨0, 255, 0⟩ ↔ 20 ≤ i ∧ i ≤ 60) ∧
      (comPhaseColor i 20 60 = ⟨0, 165, 255⟩ ↔ 60 < i) := by
  obtain ⟨pr, heq⟩ := Option.isSome_iff_exists.mp h2
  obtain ⟨fc, final⟩ := pr
  obtain ⟨hs2, hslen, hsk⟩ :=
    comLoop_spec (poseMapGet pose_data) series 20 60 video.width video.height video.frames 0 []
  have hrunw : (comRun env video pose_data ⟨some series, some 20, some 60⟩
      (fun _ => false) output_path).written =
      (comLoop (poseMapGet pose_data) series 20 60 video.width video.height
        (fun _ => false) video.frames 0 []).1 := by
    unfold comRun
    rw [h1, heq]
    simp [hs2]
  have hruns : (comRun env video pose_data ⟨some series, some 20, some 60⟩
      (fun _ => false) output_path).result.isSome = true := by
    unfold comRun
    rw [h1, heq]
    simp [hs2]
  refine ⟨hruns, by rw [hrunw, hslen, h4], ?_⟩
  intro i hi
  refine ⟨?_, comPhaseColor_20_60 i⟩
  obtain ⟨tr, htr⟩ := hsk i (by omega)
  rw [hrunw, htr]
  have := comDotColors_comFrameBuild_lt (poseMapGet pose_data) series 20 60
    video.width video.height (video.frames.getD i 0) (0 + i) tr (by omega)
  simpa using this

theorem C7_com_scenario_a_witness :
    (video100.opensOk = true ∧
     (create_video_writer envAll "out.mp4" video100.width video100.height video100.fps).isSome = true ∧
     series100.length = 100 ∧ video100.frames.length = 100) ∧
    ((comRun envAll video100 [] ⟨some series100, some 20, some 60⟩ (fun _ => false) "out.mp4").result.isSome = true ∧
     (comRun envAll video100 [] ⟨some series100, some 20, some 60⟩ (fun _ => false) "out.mp4").written.length = 100 ∧
     ∀ i, i < 100 →
       comDotColors ((comRun envAll video100 [] ⟨some series100, some 20, some 60⟩
           (fun _ => false) "out.mp4").written.getD i ⟨0, []⟩) = [comPhaseColor i 20 60] ∧
       (comPhaseColor i 20 60 = ⟨255, 100, 0⟩ ↔ i < 20) ∧
       (comPhaseColor i 20 60 = ⟨0, 255, 0⟩ ↔ 20 ≤ i ∧ i ≤ 60) ∧
       (comPhaseColor i 20 60 = ⟨0, 165, 255⟩ ↔ 60 < i)) :=
  ⟨⟨rfl, rfl, by simp [series100], by simp [video100]⟩,
   C7_com_scenario_a envAll video100 [] series100 "out.mp4" rfl rfl
     (by simp [series100]) (by simp [video100])⟩

/-! ## Run-level helper lemmas -/

theorem pyEndsWith_append (a b : String) : pyEndsWith (a ++ b) b = true := by
  rw [pyEndsWith, decide_eq_true_eq]
  show b.data <:+ (a ++ b).data
  rw [String.data_append]
  exact List.suffix_append _ _

/-- The rewritten FBR output path always ends in ".avi", which is why the
source's writer-open guard is vacuous. -/
theorem fbrPath2_endsWith (output_path : String) :
    pyEndsWith (if !pyEndsWith output_path ".avi" then
      baseNoExt output_path ++ ".avi" else output_path) ".avi" = true := by
  by_cases hp : pyEndsWith output_path ".avi" = true
  · rw [if_neg (by simp [hp])]
    exact hp
  · rw [if_pos (by simp [Bool.eq_false_iff.mpr hp])]
    exact pyEndsWith_append _ _

theorem comRun_success_fields (env : WriterEnv) (video : InputVideo)
    (pose_data : List PoseItem) (com_data : ComData) (output_path : String)
    (h1 : video.opensOk = true)
    (h2 : (create_video_writer env output_path video.width video.height video.fps).isSome = true) :
    (comRun env video pose_data com_data (fun _ => false) output_path).written =
      (comLoop (poseMapGet pose_data) (com_data.com_x_series.getD [])
        (com_data.stance_frame.getD 0) (com_data.impact_frame.getD 0)
        video.width video.height (fun _ => false) video.frames 0 []).1 ∧
    (comRun env video pose_data com_data (fun _ => false) output_path).result.isSome = true ∧
    (comRun env video pose_data com_data (fun _ => false) output_path).capReleased = true ∧
    (comRun env video pose_data com_data (fun _ => false) output_path).outReleased = true ∧
    (comRun env video pose_data com_data (fun _ => false) output_path).raised = false := by
  obtain ⟨pr, heq⟩ := Option.isSome_iff_exists.mp h2
  obtain ⟨fc, final⟩ := pr
  obtain ⟨hs2, _, _⟩ :=
    comLoop_spec (poseMapGet pose_data) (com_data.com_x_series.getD [])
      (com_data.stance_frame.getD 0) (com_data.impact_frame.getD 0)
      video.width video.height video.frames 0 []
  refine ⟨?_, ?_, ?_, ?_, ?_⟩ <;>
    · unfold comRun
      rw [h1, heq]
      simp [hs2]

theorem fbrRun_success_fields (env : WriterEnv) (video : InputVideo)
    (pose_data : List PoseItem) (fbr_data : FbrData) (output_path : String)
    (h1 : video.opensOk = true) :
    (fbrRun env video pose_data fbr_data (fun _ => false) output_path).result =
      some (if !pyEndsWith output_path ".avi" then baseNoExt output_path ++ ".avi" else output_path) ∧
    (fbrRun env video pose_data fbr_data (fun _ => false) output_path).written =
      (if env.openAt (if !pyEndsWith output_path ".avi" then baseNoExt output_path ++ ".avi"
          else output_path) Fourcc.MJPG then
        (fbrLoop (poseMapGet pose_data) (fbr_data.com_y_series.getD [])
          (fbr_data.plant_frame.getD 0) (fbr_data.lowest_com_frame.getD 0)
          video.width video.height (fun _ => false) video.frames 0).1
      else []) ∧
    (fbrRun env video pose_data fbr_data (fun _ => false) output_path).capReleased = true ∧
    (fbrRun env video pose_data fbr_data (fun _ => false) output_path).outReleased = true ∧
    (fbrRun env video pose_data fbr_data (fun _ => false) output_path).raised = false := by
  have hends := fbrPath2_endsWith output_path
  obtain ⟨hs2, _, _⟩ :=
    fbrLoop_spec (poseMapGet pose_data) (fbr_data.com_y_series.getD [])
      (fbr_data.plant_frame.getD 0) (fbr_data.lowest_com_frame.getD 0)
      video.width video.height video.frames 0
  refine ⟨?_, ?_, ?_, ?_, ?_⟩ <;>
    · unfold fbrRun
      rw [h1]
      have hcond : pyEndsWith (if pyEndsWith output_path ".avi" = false then
          baseNoExt output_path ++ ".avi" else output_path) ".avi" = true := by
        simpa using hends
      simp [hcond, hs2]

theorem hasSkeletonOps_comFrameBuild_ge (pm : ℕ → Option (List Landmark)) (series : List ℚ)
    (st im w h img idx : ℕ) (tr : List ℚ) (hidx : ¬ idx < series.length)
    (lms : List Landmark) (hpm : pm idx = some lms) (hne : lms ≠ []) :
    hasSkeletonOps (comFrameBuild pm series st im w h img idx tr) = true := by
  rw [comFrameBuild]
  simp only [hpm, hidx, if_neg]
  exact hasSkeletonOps_draw_pose img lms w h hne

theorem fbrFrameBuild_no_landmarks (pm : ℕ → Option (List Landmark)) (series : List ℚ)
    (plant lowest w h img idx : ℕ) (hpm : pm idx = none) :
    fbrFrameBuild pm series plant lowest w h img idx = ⟨img, []⟩ := by
  rw [fbrFrameBuild]
  simp [hpm]

/-! ## C5: layer independence -/

/-- C5 counterexample: in the FBR processor the metric overlay is *not*
independent of the skeleton layer.  With a one-frame video, a series
covering frame 0, and no landmark set for frame 0, the written frame
carries no drawing operations at all: the FBR overlay was skipped even
though the series covers the index, because it is nested inside the
landmark check. -/
theorem C5_fbr_layer_counterexample :
    (0 : ℕ) < ([1/2] : List ℚ).length ∧
    poseMapGet [] 0 = none ∧
    ((fbrRun envAll videoOne [] ⟨some [1/2], some 0, some 0⟩ (fun _ => false)
      "out.avi").written.getD 0 ⟨0, []⟩).ops = [] := by
  refine ⟨by decide, rfl, ?_⟩
  obtain ⟨_, hw, _⟩ :=
    fbrRun_success_fields envAll videoOne [] ⟨some [1/2], some 0, some 0⟩ "out.avi" rfl
  have ho : envAll.openAt (if !pyEndsWith "out.avi" ".avi" then
      baseNoExt "out.avi" ++ ".avi" else "out.avi") Fourcc.MJPG = true := rfl
  rw [hw, if_pos ho]
  obtain ⟨_, _, hfk⟩ :=
    fbrLoop_spec (poseMapGet []) (([1/2] : List ℚ)) 0 0 videoOne.width videoOne.height
      videoOne.frames 0
  show ((fbrLoop (poseMapGet []) [1/2] 0 0 videoOne.width videoOne.height
      (fun _ => false) videoOne.frames 0).1.getD 0 ⟨0, []⟩).ops = []
  rw [hfk 0 (by decide)]
  rw [fbrFrameBuild_no_landmarks _ _ _ _ _ _ _ _ rfl]

/-- C5 amended: in the COM processor the skeleton and metric layers are
independent — the COM overlay is drawn exactly for frame indices strictly
below the series length regardless of landmark presence, and for frames
at or beyond the series length no COM geometry is drawn while the
skeleton (when landmarks exist) still is.  In the FBR processor the
metric overlay is additionally gated on the landmark set: a frame with no
landmarks gets no overlay geometry at all, even when the series covers
its index. -/
theorem C5_amended_overlay_layers (env : WriterEnv) (video : InputVideo)
    (pose_data : List PoseItem) (com_data : ComData) (fbr_data : FbrData) (output_path : String)
    (h1 : video.opensOk = true)
    (h2 : (create_video_writer env output_path video.width video.height video.fps).isSome = true) :
    (∀ i, i < video.frames.length →
      (i < (com_data.com_x_series.getD []).length →
        comDotColors ((comRun env video pose_data com_data (fun _ => false)
            output_path).written.getD i ⟨0, []⟩) =
          [comPhaseColor i (com_data.stance_frame.getD 0) (com_data.impact_frame.getD 0)]) ∧
      (¬ i < (com_data.com_x_series.getD []).length →
        comDotColors ((comRun env video pose_data com_data (fun _ => false)
            output_path).written.getD i ⟨0, []⟩) = [] ∧
        ∀ lms, poseMapGet pose_data i = some lms →
          hasSkeletonOps ((comRun env video pose_data com_data (fun _ => false)
            output_path).written.getD i ⟨0, []⟩) = true)) ∧
    (∀ i, i < video.frames.length → poseMapGet pose_data i = none →
      ((fbrRun env video pose_data fbr_data (fun _ => false)
          output_path).written.getD i ⟨0, []⟩).ops = []) := by
  obtain ⟨hw, _, _⟩ := comRun_success_fields env video pose_data com_data output_path h1 h2
  obtain ⟨_, hslen, hsk⟩ :=
    comLoop_spec (poseMapGet pose_data) (com_data.com_x_series.getD [])
      (com_data.stance_frame.getD 0) (com_data.impact_frame.getD 0)
      video.width video.height video.frames 0 []
  constructor
  · intro i hi
    obtain ⟨tr, htr⟩ := hsk i hi
    constructor
    · intro hlt
      rw [hw, htr]
      have := comDotColors_comFrameBuild_lt (poseMapGet pose_data)
        (com_data.com_x_series.getD []) (com_data.stance_frame.getD 0)
        (com_data.impact_frame.getD 0) video.width video.height
        (video.frames.getD i 0) (0 + i) tr (by omega)
      simpa using this
    · intro hge
      constructor
      · rw [hw, htr]
        exact comDotColors_comFrameBuild_ge (poseMapGet pose_data)
          (com_data.com_x_series.getD []) (com_data.stance_frame.getD 0)
          (com_data.impact_frame.getD 0) video.width video.height
          (video.frames.getD i 0) (0 + i) tr (by omega)
      · intro lms hpm
        rw [hw, htr]
        exact hasSkeletonOps_comFrameBuild_ge (poseMapGet pose_data)
          (com_data.com_x_series.getD []) (com_data.stance_frame.getD 0)
          (com_data.impact_frame.getD 0) video.width video.height
          (video.frames.getD i 0) (0 + i) tr (by omega) lms (by simpa using hpm)
          (poseMapGet_ne_nil pose_data i lms hpm)
  · intro i hi hpm
    obtain ⟨_, hfw, _⟩ := fbrRun_success_fields env video pose_data fbr_data output_path h1
    obtain ⟨_, _, hfk⟩ :=
      fbrLoop_spec (poseMapGet pose_data) (fbr_data.com_y_series.getD [])
        (fbr_data.plant_frame.getD 0) (fbr_data.lowest_com_frame.getD 0)
        video.width video.height video.frames 0
    by_cases ho : env.openAt (if !pyEndsWith output_path ".avi" then
        baseNoExt output_path ++ ".avi" else output_path) Fourcc.MJPG = true
    · rw [hfw, if_pos ho, hfk i hi,
        fbrFrameBuild_no_landmarks _ _ _ _ _ _ _ _ (by simpa using hpm)]
    · rw [hfw, if_neg ho]
      rfl

theorem C5_amended_overlay_layers_witness :
    (videoOne.opensOk = true ∧
     (create_video_writer envAll "o.mp4" videoOne.width videoOne.height videoOne.fps).isSome = true) ∧
    ((∀ i, i < videoOne.frames.length →
      (i < ((ComData.mk none none none).com_x_series.getD []).length →
        comDotColors ((comRun envAll videoOne [] ⟨none, none, none⟩ (fun _ => false)
            "o.mp4").written.getD i ⟨0, []⟩) =
          [comPhaseColor i ((ComData.mk none none none).stance_frame.getD 0)
            ((ComData.mk none none none).impact_frame.getD 0)]) ∧
      (¬ i < ((ComData.mk none none none).com_x_series.getD []).length →
        comDotColors ((comRun envAll videoOne [] ⟨none, none, none⟩ (fun _ => false)
            "o.mp4").written.getD i ⟨0, []⟩) = [] ∧
        ∀ lms, poseMapGet [] i = some lms →
          hasSkeletonOps ((comRun envAll videoOne [] ⟨none, none, none⟩ (fun _ => false)
            "o.mp4").written.getD i ⟨0, []⟩) = true)) ∧
    (∀ i, i < videoOne.frames.length → poseMapGet [] i = none →
      ((fbrRun envAll videoOne [] ⟨none, none, none⟩ (fun _ => false)
          "o.mp4").written.getD i ⟨0, []⟩).ops = [])) :=
  ⟨⟨rfl, rfl⟩,
   C5_amended_overlay_layers envAll videoOne [] ⟨none, none, none⟩ ⟨none, none, none⟩
     "o.mp4" rfl rfl⟩

/-! ## C3: handle release on every exit path -/

/-- C3 counterexample: an exception raised while rendering/encoding the
first frame propagates out of the COM processor with neither the decoder
nor the encoder released — the source has no try/finally around the
per-frame loop. -/
theorem C3_exception_counterexample :
    (comRun envAll videoOne [] ⟨some [1/2], some 0, some 0⟩ (fun _ => true) "out.mp4").raised = true ∧
    (comRun envAll videoOne [] ⟨some [1/2], some 0, some 0⟩ (fun _ => true) "out.mp4").capReleased = false ∧
    (comRun envAll videoOne [] ⟨some [1/2], some 0, some 0⟩ (fun _ => true) "out.mp4").outReleased = false :=
  ⟨rfl, rfl, rfl⟩

/-- COM run flag characterization for an arbitrary exception oracle: the
release flags are exactly the negation of the raised flag. -/
theorem comRun_flags (env : WriterEnv) (video : InputVideo) (pose_data : List PoseItem)
    (com_data : ComData) (raisesAt : ℕ → Bool) (output_path : String)
    (h1 : video.opensOk = true)
    (h2 : (create_video_writer env output_path video.width video.height video.fps).isSome = true) :
    (comRun env video pose_data com_data raisesAt output_path).capReleased =
      !(comRun env video pose_data com_data raisesAt output_path).raised ∧
    (comRun env video pose_data com_data raisesAt output_path).outReleased =
      !(comRun env video pose_data com_data raisesAt output_path).raised := by
  obtain ⟨pr, heq⟩ := Option.isSome_iff_exists.mp h2
  obtain ⟨fc, final⟩ := pr
  constructor <;>
    · unfold comRun
      rw [h1, heq]
      by_cases hr : (comLoop (poseMapGet pose_data) (com_data.com_x_series.getD [])
          (com_data.stance_frame.getD 0) (com_data.impact_frame.getD 0)
          video.width video.height raisesAt video.frames 0 []).2 = true
      · simp [hr]
      · simp [Bool.eq_false_iff.mpr hr]

/-- FBR run flag characterization for an arbitrary exception oracle. -/
theorem fbrRun_flags (env : WriterEnv) (video : InputVideo) (pose_data : List PoseItem)
    (fbr_data : FbrData) (raisesAt : ℕ → Bool) (output_path : String)
    (h1 : video.opensOk = true) :
    (fbrRun env video pose_data fbr_data raisesAt output_path).capReleased =
      !(fbrRun env video pose_data fbr_data raisesAt output_path).raised ∧
    (fbrRun env video pose_data fbr_data raisesAt output_path).outReleased =
      !(fbrRun env video pose_data fbr_data raisesAt output_path).raised := by
  have hcond : pyEndsWith (if pyEndsWith output_path ".avi" = false then
      baseNoExt output_path ++ ".avi" else output_path) ".avi" = true := by
    simpa using fbrPath2_endsWith output_path
  constructor <;>
    · unfold fbrRun
      rw [h1]
      by_cases hr : (fbrLoop (poseMapGet pose_data) (fbr_data.com_y_series.getD [])
          (fbr_data.plant_frame.getD 0) (fbr_data.lowest_com_frame.getD 0)
          video.width video.height raisesAt video.frames 0).2 = true
      · simp [hcond, hr]
      · simp [hcond, Bool.eq_false_iff.mpr hr]

/-- C3 amended: when the per-frame loop terminates normally (end of
stream, including an empty stream) both the decoder and encoder handles
are released before the processor returns; but when an exception is
raised mid-loop, the COM and FBR processors propagate it with neither
handle released (no try/finally in the source). -/
theorem C3_amended_release (env : WriterEnv) (video : InputVideo) (pose_data : List PoseItem)
    (com_data : ComData) (fbr_data : FbrData) (raisesAt : ℕ → Bool) (output_path : String)
    (h1 : video.opensOk = true)
    (h2 : (create_video_writer env output_path video.width video.height video.fps).isSome = true) :
    ((comRun env video pose_data com_data raisesAt output_path).raised = false →
      (comRun env video pose_data com_data raisesAt output_path).capReleased = true ∧
      (comRun env video pose_data com_data raisesAt output_path).outReleased = true) ∧
    ((comRun env video pose_data com_data raisesAt output_path).raised = true →
      (comRun env video pose_data com_data raisesAt output_path).capReleased = false ∧
      (comRun env video pose_data com_data raisesAt output_path).outReleased = false) ∧
    ((fbrRun env video pose_data fbr_data raisesAt output_path).raised = false →
      (fbrRun env video pose_data fbr_data raisesAt output_path).capReleased = true ∧
      (fbrRun env video pose_data fbr_data raisesAt output_path).outReleased = true) ∧
    ((fbrRun env video pose_data fbr_data raisesAt output_path).raised = true →
      (fbrRun env video pose_data fbr_data raisesAt output_path).capReleased = false ∧
      (fbrRun env video pose_data fbr_data raisesAt output_path).outReleased = false) := by
  obtain ⟨hc1, hc2⟩ := comRun_flags env video pose_data com_data raisesAt output_path h1 h2
  obtain ⟨hf1, hf2⟩ := fbrRun_flags env video pose_data fbr_data raisesAt output_path h1
  refine ⟨fun hr => ?_, fun hr => ?_, fun hr => ?_, fun hr => ?_⟩ <;>
    simp [hc1, hc2, hf1, hf2, hr]

theorem C3_amended_release_witness :
    (videoOne.opensOk = true ∧
     (create_video_writer envAll "out.mp4" videoOne.width videoOne.height videoOne.fps).isSome = true) ∧
    (((comRun envAll videoOne [] ⟨none, none, none⟩ (fun _ => false) "out.mp4").raised = false →
      (comRun envAll videoOne [] ⟨none, none, none⟩ (fun _ => false) "out.mp4").capReleased = true ∧
      (comRun envAll videoOne [] ⟨none, none, none⟩ (fun _ => false) "out.mp4").outReleased = true) ∧
    ((comRun envAll videoOne [] ⟨none, none, none⟩ (fun _ => false) "out.mp4").raised = true →
      (comRun envAll videoOne [] ⟨none, none, none⟩ (fun _ => false) "out.mp4").capReleased = false ∧
      (comRun envAll videoOne [] ⟨none, none, none⟩ (fun _ => false) "out.mp4").outReleased = false) ∧
    ((fbrRun envAll videoOne [] ⟨none, none, none⟩ (fun _ => false) "out.mp4").raised = false →
      (fbrRun envAll videoOne [] ⟨none, none, none⟩ (fun _ => false) "out.mp4").capReleased = true ∧
      (fbrRun envAll videoOne [] ⟨none, none, none⟩ (fun _ => false) "out.mp4").outReleased = true) ∧
    ((fbrRun envAll videoOne [] ⟨none, none, none⟩ (fun _ => false) "out.mp4").raised = true →
      (fbrRun envAll videoOne [] ⟨none, none, none⟩ (fun _ => false) "out.mp4").capReleased = false ∧
      (fbrRun envAll videoOne [] ⟨none, none, none⟩ (fun _ => false) "out.mp4").outReleased = false)) :=
  ⟨⟨rfl, rfl⟩,
   C3_amended_release envAll videoOne [] ⟨none, none, none⟩ ⟨none, none, none⟩
     (fun _ => false) "out.mp4" rfl rfl⟩

/-! ## C4: output extension vs negotiated container -/

/-- C4 counterexample: in an environment whose codec negotiation selects
VP8/.webm, the kinematics processor still returns the caller's "out.mp4"
hint unchanged — it never invokes negotiation and never rewrites the
extension, so the returned path does not match the negotiated container. -/
theorem C4_extension_counterexample :
    (detect_available_codec envAll.toCodecEnv).map (fun c => c.2.1) = some ".webm" ∧
    (kinRun envAll videoOne [] ⟨none⟩ "out.mp4").result = some "out.mp4" ∧
    pyEndsWith "out.mp4" ".webm" = false :=
  ⟨rfl, rfl, by decide⟩

/-- C4 amended: only the COM processor rewrites the output extension to
the negotiated container (returned unchanged when that container is
.mp4/.webm, the case in which no post-hoc conversion is attempted); the
FBR processor always forces ".avi" regardless of negotiation; the head,
hip-shoulder and kinematics processors return the caller's path hint
unchanged. -/
theorem C4_amended_extension (env : WriterEnv) (video : InputVideo) (pose_data : List PoseItem)
    (com_data : ComData) (fbr_data : FbrData) (head_data : HeadData) (hs_data : HsData)
    (kin_data : KinData) (output_path : String) (fourcc : Fourcc) (ext name : String)
    (h1 : video.opensOk = true)
    (hdet : detect_available_codec env.toCodecEnv = some (fourcc, ext, name))
    (hopen : env.openAt (baseNoExt output_path ++ ext) fourcc = true)
    (hext : ext = ".mp4" ∨ ext = ".webm")
    (hopenp : env.openAt output_path Fourcc.mp4v = true) :
    (comRun env video pose_data com_data (fun _ => false) output_path).result =
      some (baseNoExt output_path ++ ext) ∧
    (fbrRun env video pose_data fbr_data (fun _ => false) output_path).result =
      some (if !pyEndsWith output_path ".avi" then baseNoExt output_path ++ ".avi"
        else output_path) ∧
    pyEndsWith (if !pyEndsWith output_path ".avi" then baseNoExt output_path ++ ".avi"
      else output_path) ".avi" = true ∧
    (headRun env video pose_data head_data output_path).result = some output_path ∧
    (hsRun env video pose_data hs_data output_path).result = some output_path ∧
    (kinRun env video pose_data kin_data output_path).result = some output_path := by
  have hcreate : create_video_writer env output_path video.width video.height video.fps =
      some (fourcc, baseNoExt output_path ++ ext) := by
    unfold create_video_writer
    rw [hdet]
    simp [hopen]
  have hskip : (pyEndsWith (baseNoExt output_path ++ ext) ".mp4" ||
      pyEndsWith (baseNoExt output_path ++ ext) ".webm") = true := by
    rcases hext with h | h <;> subst h <;> simp [pyEndsWith_append]
  obtain ⟨hs2, _, _⟩ :=
    comLoop_spec (poseMapGet pose_data) (com_data.com_x_series.getD [])
      (com_data.stance_frame.getD 0) (com_data.impact_frame.getD 0)
      video.width video.height video.frames 0 []
  refine ⟨?_, (fbrRun_success_fields env video pose_data fbr_data output_path h1).1,
    fbrPath2_endsWith output_path, ?_, ?_, ?_⟩
  · unfold comRun
    rw [h1, hcreate]
    simp [hs2, hskip]
  · unfold headRun
    rw [h1]
    simp [hopenp]
  · unfold hsRun
    rw [h1]
    simp [hopenp]
  · unfold kinRun
    rw [h1]
    simp [hopenp]

theorem C4_amended_extension_witness :
    (videoOne.opensOk = true ∧
     detect_available_codec envAll.toCodecEnv = some (Fourcc.VP80, ".webm", "VP8") ∧
     envAll.openAt (baseNoExt "out.mp4" ++ ".webm") Fourcc.VP80 = true ∧
     (".webm" = ".mp4" ∨ (".webm" : String) = ".webm") ∧
     envAll.openAt "out.mp4" Fourcc.mp4v = true) ∧
    ((comRun envAll videoOne [] ⟨none, none, none⟩ (fun _ => false) "out.mp4").result =
      some (baseNoExt "out.mp4" ++ ".webm") ∧
     (fbrRun envAll videoOne [] ⟨none, none, none⟩ (fun _ => false) "out.mp4").result =
      some (if !pyEndsWith "out.mp4" ".avi" then baseNoExt "out.mp4" ++ ".avi"
        else "out.mp4") ∧
     pyEndsWith (if !pyEndsWith "out.mp4" ".avi" then baseNoExt "out.mp4" ++ ".avi"
      else "out.mp4") ".avi" = true ∧
     (headRun envAll videoOne [] ⟨none, none, none, none⟩ "out.mp4").result = some "out.mp4" ∧
     (hsRun envAll videoOne [] ⟨none, none⟩ "out.mp4").result = some "out.mp4" ∧
     (kinRun envAll videoOne [] ⟨none⟩ "out.mp4").result = some "out.mp4") :=
  ⟨⟨rfl, rfl, rfl, Or.inr rfl, rfl⟩,
   C4_amended_extension envAll videoOne [] ⟨none, none, none⟩ ⟨none, none, none⟩
     ⟨none, none, none, none⟩ ⟨none, none⟩ ⟨none⟩ "out.mp4" Fourcc.VP80 ".webm" "VP8"
     rfl rfl rfl (Or.inr rfl) rfl⟩

/-! ## C1: writer-open failure handling -/

/-- C1 evaluation at the failing input: in an environment where no real
output writer opens, the COM processor correctly aborts with `None` and
nothing written, but the FBR processor — whose writer-open guard tests
the vacuous `not output_path.endswith('.avi')` instead of
`not out.isOpened()` — still returns the rewritten ".avi" path as
success while zero frames were persisted. -/
theorem C1_fbr_writer_bug_eval :
    (fbrRun envNoWriter videoOne [] ⟨some [1/2], some 0, some 0⟩ (fun _ => false)
      "out.mp4").result = some "out.avi" ∧
    (fbrRun envNoWriter videoOne [] ⟨some [1/2], some 0, some 0⟩ (fun _ => false)
      "out.mp4").written = [] ∧
    (comRun envNoWriter videoOne [] ⟨some [1/2], some 0, some 0⟩ (fun _ => false)
      "out.mp4").result = none ∧
    (comRun envNoWriter videoOne [] ⟨some [1/2], some 0, some 0⟩ (fun _ => false)
      "out.mp4").written = [] :=
  ⟨rfl, rfl, rfl, rfl⟩

/-! ## C10: dict-get defaults for missing record fields -/

/-- C10: every processor reads its analysis-record fields with
`dict.get(key, default)`: a record with every named key-frame marker and
time-series field missing behaves exactly like one with the defaults
(0 for markers, empty list for series) filled in, the run still completes
(shown for the kinematics processor), and a missing series means no COM
metric geometry is drawn on any frame. -/
theorem C10_missing_fields_defaults (env : WriterEnv) (video : InputVideo)
    (pose_data : List PoseItem) (raisesAt : ℕ → Bool) (output_path : String) :
    comRun env video pose_data ⟨none, none, none⟩ raisesAt output_path =
      comRun env video pose_data ⟨some [], some 0, some 0⟩ raisesAt output_path ∧
    fbrRun env video pose_data ⟨none, none, none⟩ raisesAt output_path =
      fbrRun env video pose_data ⟨some [], some 0, some 0⟩ raisesAt output_path ∧
    headRun env video pose_data ⟨none, none, none, none⟩ output_path =
      headRun env video pose_data ⟨some [], some [], some 0, some 0⟩ output_path ∧
    hsRun env video pose_data ⟨none, none⟩ output_path =
      hsRun env video pose_data ⟨some [], some ⟨some 0, some 0, some 0⟩⟩ output_path ∧
    kinRun env video pose_data ⟨none⟩ output_path =
      kinRun env video pose_data ⟨some ⟨some 0, some 0, some 0⟩⟩ output_path ∧
    (video.opensOk = true → env.openAt output_path Fourcc.mp4v = true →
      (kinRun env video pose_data ⟨none⟩ output_path).result = some output_path) ∧
    (video.opensOk = true →
      (create_video_writer env output_path video.width video.height video.fps).isSome = true →
      ∀ i, comDotColors ((comRun env video pose_data ⟨none, none, none⟩ (fun _ => false)
        output_path).written.getD i ⟨0, []⟩) = []) := by
  refine ⟨rfl, rfl, rfl, rfl, rfl, ?_, ?_⟩
  · intro h1 hopenp
    unfold kinRun
    rw [h1]
    simp [hopenp]
  · intro h1 h2 i
    obtain ⟨hw, _, _⟩ :=
      comRun_success_fields env video pose_data ⟨none, none, none⟩ output_path h1 h2
    obtain ⟨_, hslen, hsk⟩ :=
      comLoop_spec (poseMapGet pose_data) ((none : Option (List ℚ)).getD [])
        ((none : Option ℕ).getD 0) ((none : Option ℕ).getD 0)
        video.width video.height video.frames 0 []
    rw [hw]
    by_cases hi : i < video.frames.length
    · obtain ⟨tr, htr⟩ := hsk i hi
      rw [htr]
      exact comDotColors_comFrameBuild_ge (poseMapGet pose_data) [] 0 0
        video.width video.height (video.frames.getD i 0) (0 + i) tr (by simp)
    · rw [List.getD_eq_default]
      · rfl
      · rw [hslen]
        omega

theorem C10_missing_fields_defaults_witness :
    (comRun envAll videoOne [] ⟨none, none, none⟩ (fun _ => false) "o.mp4" =
      comRun envAll videoOne [] ⟨some [], some 0, some 0⟩ (fun _ => false) "o.mp4" ∧
    fbrRun envAll videoOne [] ⟨none, none, none⟩ (fun _ => false) "o.mp4" =
      fbrRun envAll videoOne [] ⟨some [], some 0, some 0⟩ (fun _ => false) "o.mp4" ∧
    headRun envAll videoOne [] ⟨none, none, none, none⟩ "o.mp4" =
      headRun envAll videoOne [] ⟨some [], some [], some 0, some 0⟩ "o.mp4" ∧
    hsRun envAll videoOne [] ⟨none, none⟩ "o.mp4" =
      hsRun envAll videoOne [] ⟨some [], some ⟨some 0, some 0, some 0⟩⟩ "o.mp4" ∧
    kinRun envAll videoOne [] ⟨none⟩ "o.mp4" =
      kinRun envAll videoOne [] ⟨some ⟨some 0, some 0, some 0⟩⟩ "o.mp4" ∧
    (videoOne.opensOk = true → envAll.openAt "o.mp4" Fourcc.mp4v = true →
      (kinRun envAll videoOne [] ⟨none⟩ "o.mp4").result = some "o.mp4") ∧
    (videoOne.opensOk = true →
      (create_video_writer envAll "o.mp4" videoOne.width videoOne.height videoOne.fps).isSome = true →
      ∀ i, comDotColors ((comRun envAll videoOne [] ⟨none, none, none⟩ (fun _ => false)
        "o.mp4").written.getD i ⟨0, []⟩) = [])) :=
  C10_missing_fields_defaults envAll videoOne [] (fun _ => false) "o.mp4"

end InstilplayViz
